import Mathlib

/-!
Verification of the Adaptive Analytics & Insight Prioritization Engine
(plant-intel-mvp, `ml-service`).

This file gives a shallow embedding of the analytics core:

* `analytics/baseline_tracker.py`   — rolling baselines (`updateBaselines`)
* `analytics/trend_detector.py`     — divergence start, deviation
* `analytics/degradation_detector.py` — equipment/cost/quality trend detectors
* `analytics/correlation_analyzer.py` — supplier-change correlation
* `utils/insight_prioritizer.py`    — scoring, tiering, feed formatting
* `orchestrators/auto_analysis_orchestrator.py` — investigation grouping

Python floats are embedded as exact rationals (`ℚ`); the single genuinely
irrational operation (the square root inside the baseline standard
deviation) is exposed through `ℝ`.  Timestamps are embedded as integer
day numbers; "now" is passed explicitly where the source calls
`datetime.now()`.  Database reads are passed in as explicit lists of
records; database writes are recorded as returned row lists, with an
explicit `writeOk` oracle marking which upserts raise.
-/

section PlantIntel

/- Batteries marks the `Rat` arithmetic primitives `@[irreducible]`, which
blocks `decide`-style evaluation of the embedded code on concrete inputs;
make them unfoldable locally in this development. -/
attribute [local semireducible] Rat.add Rat.mul Rat.sub Rat.inv Rat.ofScientific

/-! ## Python rounding

`round(x, n)` in Python rounds half to even (banker's rounding). -/

/-- Python `round(q)`: nearest integer, ties to even. -/
def pyRoundInt (q : ℚ) : ℤ :=
  let f := q.floor
  let r := q - (f : ℚ)
  if r < 1/2 then f
  else if 1/2 < r then f + 1
  else if f % 2 = 0 then f else f + 1

/-- Python `round(q, n)` for `n` decimal digits (the power of ten is
computed in `ℕ` and cast, which keeps the definition kernel-evaluable). -/
def roundTo (n : ℕ) (q : ℚ) : ℚ :=
  (pyRoundInt (q * ((10 ^ n : ℕ) : ℚ)) : ℚ) / ((10 ^ n : ℕ) : ℚ)

/-! ## Insight prioritizer (`utils/insight_prioritizer.py`) -/

/-- `InsightPriority` enum. -/
inductive InsightPriority where
  | urgent
  | notable
  | background
deriving DecidableEq

/-- The fields of an extracted insight dictionary that
`InsightPrioritizer._score_insight`, `_calculate_deviation_score`,
`_calculate_urgency_score` and the investigation grouping read.
`Option` models key presence (`'k' in d` / `d.get('k')`). -/
structure RawInsight where
  source_analyzer : String
  insight_type : String
  /-- `insight.get('financial_impact', 0)`. -/
  financial_impact : ℚ := 0
  /-- top-level key `'failure_risk'` (set by the equipment extraction). -/
  failure_risk : Option ℚ := none
  /-- `data['risk_level']`. -/
  risk_level : Option String := none
  /-- `data['order_count']`. -/
  order_count : Option ℚ := none
  /-- `data['scrap_rate']`. -/
  scrap_rate : Option ℚ := none
  /-- `data['confidence']`. -/
  confidence : Option ℚ := none
  /-- `data['type']` (pattern kind: material / supplier). -/
  data_type : Option String := none
  /-- `data['identifier']`. -/
  identifier : Option String := none
  /-- `data['trend']['status']`. -/
  trend_status : Option String := none
deriving DecidableEq

/-- `financial_score = min(100, (financial_impact / 1000) * 10)`. -/
def financialScore (i : RawInsight) : ℚ :=
  min 100 (i.financial_impact / 1000 * 10)

/-- The `risk_map` used by `_calculate_deviation_score`
(`risk_map.get(data['risk_level'], 50)`). -/
def riskMapDeviation (s : String) : ℚ :=
  if s = "critical" then 100
  else if s = "high" then 75
  else if s = "medium" then 50
  else if s = "low" then 25
  else 50

/-- `InsightPrioritizer._calculate_deviation_score`. -/
def deviationScore (i : RawInsight) : ℚ :=
  match i.failure_risk with
  | some fr => fr * 100
  | none =>
    match i.risk_level with
    | some rl => riskMapDeviation rl
    | none =>
      match i.order_count with
      | some oc => min 100 (oc * 10)
      | none => 50

/-- The `risk_map` used by `_calculate_urgency_score` for predictions. -/
def riskMapUrgency (s : String) : ℚ :=
  if s = "critical" then 95
  else if s = "high" then 75
  else if s = "medium" then 50
  else if s = "low" then 25
  else 50

/-- `InsightPrioritizer._calculate_urgency_score`. -/
def urgencyScore (i : RawInsight) : ℚ :=
  if i.insight_type = "equipment_failure_risk" then (i.failure_risk.getD 0) * 100
  else if i.insight_type = "quality_issue" then min 100 ((i.scrap_rate.getD 0) * 200)
  else if i.insight_type = "pattern" then min 100 ((i.order_count.getD 0) * 8)
  else if i.insight_type = "prediction" then riskMapUrgency (i.risk_level.getD "medium")
  else if i.insight_type = "efficiency_opportunity" then 40
  else 50

/-- `confidence_score = data.get('confidence', 0.7) * 100`. -/
def confidenceScore (i : RawInsight) : ℚ :=
  (i.confidence.getD (7/10)) * 100

/-- `ScoredInsight` dataclass. -/
structure ScoredInsight where
  source_analyzer : String
  insight_type : String
  insight_data : RawInsight
  priority_score : ℚ
  priority_level : InsightPriority
  financial_impact : ℚ
  deviation_score : ℚ
  urgency_score : ℚ
  confidence_score : ℚ
deriving DecidableEq

/-- `InsightPrioritizer._score_insight`.  The weights are the class
constants `FINANCIAL_WEIGHT = 0.4`, `DEVIATION_WEIGHT = 0.3`,
`URGENCY_WEIGHT = 0.2`, `CONFIDENCE_WEIGHT = 0.1`; the resulting weighted
total is stored as `round(priority_score, 2)`. -/
def scoreInsight (i : RawInsight) : ScoredInsight :=
  { source_analyzer := i.source_analyzer
    insight_type := i.insight_type
    insight_data := i
    priority_score :=
      roundTo 2 (financialScore i * (0.4 : ℚ) + deviationScore i * (0.3 : ℚ)
        + urgencyScore i * (0.2 : ℚ) + confidenceScore i * (0.1 : ℚ))
    priority_level := InsightPriority.background
    financial_impact := i.financial_impact
    deviation_score := deviationScore i
    urgency_score := urgencyScore i
    confidence_score := confidenceScore i }

/-- Result of `InsightPrioritizer.prioritize_insights`. -/
structure PrioritizedInsights where
  urgent : List ScoredInsight
  notable : List ScoredInsight
  background : List ScoredInsight
  total_insights : ℕ
deriving DecidableEq

/-- The in-place `insight.priority_level = ...` assignment. -/
def setLevel (lvl : InsightPriority) (s : ScoredInsight) : ScoredInsight :=
  { s with priority_level := lvl }

/-- Stable insertion step: place `a` before the first element `b` with
`le a b` (so among "equal" elements the earlier-inserted one stays
first). -/
def pyInsert {α : Type} (le : α → α → Bool) (a : α) : List α → List α
  | [] => [a]
  | b :: l => if le a b then a :: b :: l else b :: pyInsert le a l

/-- A stable sort (Python `list.sort` is stable; every stable sort
computes the same list, and this structural implementation keeps the
embedding kernel-evaluable, unlike `List.mergeSort`). -/
def pyStableSort {α : Type} (le : α → α → Bool) : List α → List α
  | [] => []
  | a :: l => pyInsert le a (pyStableSort le l)

lemma pyInsert_perm {α : Type} (le : α → α → Bool) (a : α) :
    ∀ l : List α, (pyInsert le a l).Perm (a :: l)
  | [] => List.Perm.refl _
  | b :: l => by
    show (if le a b then a :: b :: l else b :: pyInsert le a l).Perm (a :: b :: l)
    by_cases h : le a b
    · rw [if_pos h]
    · rw [if_neg h]
      exact ((pyInsert_perm le a l).cons b).trans (List.Perm.swap a b l)

lemma pyStableSort_perm {α : Type} (le : α → α → Bool) :
    ∀ l : List α, (pyStableSort le l).Perm l
  | [] => List.Perm.refl _
  | a :: l => (pyInsert_perm le a _).trans ((pyStableSort_perm le l).cons a)

lemma pyStableSort_length {α : Type} (le : α → α → Bool) (l : List α) :
    (pyStableSort le l).length = l.length :=
  (pyStableSort_perm le l).length_eq

lemma pyInsert_pairwise {α : Type} (le : α → α → Bool)
    (total : ∀ a b, le a b = true ∨ le b a = true)
    (htrans : ∀ a b c, le a b = true → le b c = true → le a c = true) (a : α) :
    ∀ l : List α, l.Pairwise (fun x y => le x y = true) →
    (pyInsert le a l).Pairwise (fun x y => le x y = true)
  | [], _ => by simp [pyInsert]
  | b :: l, hl => by
    show (if le a b then a :: b :: l else b :: pyInsert le a l).Pairwise _
    by_cases h : le a b
    · rw [if_pos h]
      refine List.Pairwise.cons ?_ hl
      intro y hy
      rcases List.mem_cons.mp hy with rfl | hy2
      · exact h
      · exact htrans a b y h (List.rel_of_pairwise_cons hl hy2)
    · rw [if_neg h]
      have hba : le b a = true := (total a b).resolve_left (by simpa using h)
      refine List.Pairwise.cons ?_
        (pyInsert_pairwise le total htrans a l (List.Pairwise.of_cons hl))
      intro y hy
      have hmem := (pyInsert_perm le a l).mem_iff.mp hy
      rcases List.mem_cons.mp hmem with rfl | hy2
      · exact hba
      · exact List.rel_of_pairwise_cons hl hy2

lemma pyStableSort_pairwise {α : Type} (le : α → α → Bool)
    (total : ∀ a b, le a b = true ∨ le b a = true)
    (htrans : ∀ a b c, le a b = true → le b c = true → le a c = true) :
    ∀ l : List α, (pyStableSort le l).Pairwise (fun x y => le x y = true)
  | [] => by simp [pyStableSort]
  | a :: l =>
    pyInsert_pairwise le total htrans a _ (pyStableSort_pairwise le total htrans l)

/-- `InsightPrioritizer.prioritize_insights`, from the point where all
extracted insights have been collected: score, stable-sort descending by
`priority_score` (Python `list.sort` is stable), slice off the top
`URGENT_COUNT = 5`, the next `NOTABLE_COUNT = 10`, and the remainder. -/
def prioritizeInsights (all : List RawInsight) : PrioritizedInsights :=
  let scored := all.map scoreInsight
  let sorted := pyStableSort (fun a b => b.priority_score ≤ a.priority_score) scored
  { urgent := (sorted.take 5).map (setLevel InsightPriority.urgent)
    notable := ((sorted.drop 5).take 10).map (setLevel InsightPriority.notable)
    background := (sorted.drop 15).map (setLevel InsightPriority.background)
    total_insights := scored.length }

/-- One entry of the feed built by
`InsightPrioritizer.format_prioritized_feed` (the free-text consultant
narrative, produced by the external `ActionRecommender`, is omitted). -/
structure FormattedInsight where
  priority : InsightPriority
  score : ℚ
  source : String
  insight_type : String
  financial_impact : ℚ
deriving DecidableEq

/-- The `format_insight` closure inside `format_prioritized_feed`. -/
def formatInsight (s : ScoredInsight) : FormattedInsight :=
  { priority := s.priority_level
    score := s.priority_score
    source := s.source_analyzer
    insight_type := s.insight_type
    financial_impact := s.financial_impact }

/-- The `summary` block of `format_prioritized_feed`. -/
structure FeedSummary where
  total_insights : ℕ
  urgent_count : ℕ
  notable_count : ℕ
  background_count : ℕ
  total_financial_impact : ℚ
deriving DecidableEq

/-- Return value of `format_prioritized_feed`. -/
structure FormattedFeed where
  urgent : List FormattedInsight
  notable : List FormattedInsight
  background : List FormattedInsight
  summary : FeedSummary
deriving DecidableEq

/-- `InsightPrioritizer.format_prioritized_feed`.  Note that
`total_financial_impact` sums over `prioritized['urgent'] +
prioritized['notable']` only. -/
def formatPrioritizedFeed (p : PrioritizedInsights) : FormattedFeed :=
  { urgent := p.urgent.map formatInsight
    notable := p.notable.map formatInsight
    background := p.background.map formatInsight
    summary :=
      { total_insights := p.total_insights
        urgent_count := p.urgent.length
        notable_count := p.notable.length
        background_count := p.background.length
        total_financial_impact :=
          ((p.urgent ++ p.notable).map ScoredInsight.financial_impact).sum } }

/-! ### Helper lemmas for the prioritizer -/

lemma riskMapDeviation_bounds (s : String) :
    0 ≤ riskMapDeviation s ∧ riskMapDeviation s ≤ 100 := by
  unfold riskMapDeviation
  split_ifs <;> norm_num

lemma riskMapUrgency_bounds (s : String) :
    0 ≤ riskMapUrgency s ∧ riskMapUrgency s ≤ 100 := by
  unfold riskMapUrgency
  split_ifs <;> norm_num

lemma setLevel_setLevel (a b : InsightPriority) (s : ScoredInsight) :
    setLevel a (setLevel b s) = setLevel a s := rfl

lemma setLevel_background_scoreInsight (i : RawInsight) :
    setLevel InsightPriority.background (scoreInsight i) = scoreInsight i := rfl

lemma prioritize_parts_eq (xs : List RawInsight) :
    (prioritizeInsights xs).urgent ++ (prioritizeInsights xs).notable
        ++ (prioritizeInsights xs).background
      = (((pyStableSort (fun a b => b.priority_score ≤ a.priority_score)
            (xs.map scoreInsight)).take 5).map
              (setLevel InsightPriority.urgent))
        ++ ((((pyStableSort (fun a b => b.priority_score ≤ a.priority_score)
            (xs.map scoreInsight)).drop 5).take 10).map
              (setLevel InsightPriority.notable))
        ++ (((pyStableSort (fun a b => b.priority_score ≤ a.priority_score)
            (xs.map scoreInsight)).drop 15).map
              (setLevel InsightPriority.background)) := rfl

lemma take_drop_partition (l : List ScoredInsight) :
    l.take 5 ++ (l.drop 5).take 10 ++ l.drop 15 = l := by
  have h1 : (l.drop 5).drop 10 = l.drop 15 := by
    rw [List.drop_drop]
  calc l.take 5 ++ (l.drop 5).take 10 ++ l.drop 15
      = l.take 5 ++ ((l.drop 5).take 10 ++ (l.drop 5).drop 10) := by
        rw [h1, List.append_assoc]
    _ = l.take 5 ++ l.drop 5 := by rw [List.take_append_drop]
    _ = l := List.take_append_drop 5 l

lemma prioritize_concat_map {β : Type} (xs : List RawInsight) (f : ScoredInsight → β)
    (hf : ∀ lvl s, f (setLevel lvl s) = f s) :
    ((prioritizeInsights xs).urgent ++ (prioritizeInsights xs).notable
        ++ (prioritizeInsights xs).background).map f
      = ((pyStableSort (fun a b => b.priority_score ≤ a.priority_score)
            (xs.map scoreInsight)).map f) := by
  rw [prioritize_parts_eq]
  set l := pyStableSort (fun a b => b.priority_score ≤ a.priority_score)
    (xs.map scoreInsight)
  rw [List.map_append, List.map_append, List.map_map, List.map_map, List.map_map]
  have e1 : f ∘ setLevel InsightPriority.urgent = f := funext fun s => hf _ s
  have e2 : f ∘ setLevel InsightPriority.notable = f := funext fun s => hf _ s
  have e3 : f ∘ setLevel InsightPriority.background = f := funext fun s => hf _ s
  rw [e1, e2, e3, ← List.map_append, ← List.map_append, take_drop_partition]

lemma prioritize_perm (xs : List RawInsight) :
    (((prioritizeInsights xs).urgent ++ (prioritizeInsights xs).notable
        ++ (prioritizeInsights xs).background).map
          (setLevel InsightPriority.background)).Perm (xs.map scoreInsight) := by
  rw [prioritize_concat_map xs (setLevel InsightPriority.background) (fun lvl s => rfl)]
  have hperm := pyStableSort_perm
    (fun a b : ScoredInsight => decide (b.priority_score ≤ a.priority_score))
    (xs.map scoreInsight)
  have := hperm.map (setLevel InsightPriority.background)
  refine this.trans ?_
  rw [List.map_map]
  have : (setLevel InsightPriority.background ∘ scoreInsight) = scoreInsight :=
    funext fun i => setLevel_background_scoreInsight i
  rw [this]

lemma deviationScore_bounds (i : RawInsight)
    (hfr : ∀ fr ∈ i.failure_risk, 0 ≤ fr ∧ fr ≤ 1)
    (hoc : ∀ oc ∈ i.order_count, 0 ≤ oc) :
    0 ≤ deviationScore i ∧ deviationScore i ≤ 100 := by
  rcases h1 : i.failure_risk with _ | fr
  · rcases h2 : i.risk_level with _ | rl
    · rcases h3 : i.order_count with _ | oc
      · simp only [deviationScore, h1, h2, h3]
        norm_num
      · have hoc2 := hoc oc h3
        simp only [deviationScore, h1, h2, h3]
        constructor
        · exact le_min (by norm_num) (mul_nonneg hoc2 (by norm_num))
        · exact min_le_left _ _
    · simp only [deviationScore, h1, h2]
      exact riskMapDeviation_bounds rl
  · have hfr2 := hfr fr h1
    simp only [deviationScore, h1]
    constructor
    · exact mul_nonneg hfr2.1 (by norm_num)
    · nlinarith [hfr2.1, hfr2.2]

lemma urgencyScore_bounds (i : RawInsight)
    (hfr : ∀ fr ∈ i.failure_risk, 0 ≤ fr ∧ fr ≤ 1)
    (hoc : ∀ oc ∈ i.order_count, 0 ≤ oc)
    (hsr : ∀ sr ∈ i.scrap_rate, 0 ≤ sr) :
    0 ≤ urgencyScore i ∧ urgencyScore i ≤ 100 := by
  unfold urgencyScore
  split_ifs
  · rcases h1 : i.failure_risk with _ | fr
    · simp [h1]
    · have hfr2 := hfr fr h1
      simp only [h1, Option.getD_some]
      constructor
      · exact mul_nonneg hfr2.1 (by norm_num)
      · nlinarith [hfr2.1, hfr2.2]
  · rcases h3 : i.scrap_rate with _ | sr
    · simp [h3]
    · have hsr2 := hsr sr h3
      simp only [h3, Option.getD_some]
      constructor
      · exact le_min (by norm_num) (mul_nonneg hsr2 (by norm_num))
      · exact min_le_left _ _
  · rcases h3 : i.order_count with _ | oc
    · simp [h3]
    · have hoc2 := hoc oc h3
      simp only [h3, Option.getD_some]
      constructor
      · exact le_min (by norm_num) (mul_nonneg hoc2 (by norm_num))
      · exact min_le_left _ _
  · exact riskMapUrgency_bounds _
  · norm_num
  · norm_num

lemma confidenceScore_bounds (i : RawInsight)
    (hc : ∀ c ∈ i.confidence, 0 ≤ c ∧ c ≤ 1) :
    0 ≤ confidenceScore i ∧ confidenceScore i ≤ 100 := by
  rcases h1 : i.confidence with _ | c
  · simp only [confidenceScore, h1, Option.getD_none]
    norm_num
  · have hc2 := hc c h1
    simp only [confidenceScore, h1, Option.getD_some]
    constructor
    · exact mul_nonneg hc2.1 (by norm_num)
    · nlinarith [hc2.1, hc2.2]

/-! ### C1 -/

/-- C1 (corrected): for every insight passed to the scorer, the stored
`priority_score` is the weighted sum
`0.4·financial + 0.3·deviation + 0.2·urgency + 0.1·confidence` **rounded
to two decimal places** (the source stores `round(priority_score, 2)`,
so the exact-equality reading of the claim fails, see
`c1_counterexample`); `financial_score = min(100, financial_impact/100)`
holds exactly; and each of the four sub-scores lies in `[0, 100]`
**provided** the incoming fields are in their natural ranges
(nonnegative financial impact, order count and scrap rate, and failure
risk / confidence in `[0, 1]`) — the code never clamps from below, nor
does it clamp `failure_risk·100` or `confidence·100` from above. -/
theorem c1_priority_scoring (i : RawInsight)
    (hfi : 0 ≤ i.financial_impact)
    (hfr : ∀ fr ∈ i.failure_risk, 0 ≤ fr ∧ fr ≤ 1)
    (hoc : ∀ oc ∈ i.order_count, 0 ≤ oc)
    (hsr : ∀ sr ∈ i.scrap_rate, 0 ≤ sr)
    (hc : ∀ c ∈ i.confidence, 0 ≤ c ∧ c ≤ 1) :
    (scoreInsight i).priority_score
      = roundTo 2 ((0.4 : ℚ) * financialScore i + 0.3 * deviationScore i
          + 0.2 * urgencyScore i + 0.1 * confidenceScore i)
    ∧ financialScore i = min 100 (i.financial_impact / 100)
    ∧ (0 ≤ financialScore i ∧ financialScore i ≤ 100)
    ∧ (0 ≤ deviationScore i ∧ deviationScore i ≤ 100)
    ∧ (0 ≤ urgencyScore i ∧ urgencyScore i ≤ 100)
    ∧ (0 ≤ confidenceScore i ∧ confidenceScore i ≤ 100) := by
  refine ⟨?_, ?_, ⟨?_, ?_⟩, deviationScore_bounds i hfr hoc,
    urgencyScore_bounds i hfr hoc hsr, confidenceScore_bounds i hc⟩
  · show roundTo 2 _ = roundTo 2 _
    congr 1
    ring
  · unfold financialScore
    congr 1
    ring
  · exact le_min (by norm_num) (by positivity)
  · exact min_le_left _ _

/-- An insight with `financial_impact = 1` and no other keys: the exact
weighted sum is `32.004`, but the code stores `round(·, 2) = 32.0`. -/
def c1Insight : RawInsight :=
  { source_analyzer := "cost_analyzer", insight_type := "other", financial_impact := 1 }

/-- A quality insight whose analyzer-reported confidence is `1.5`:
`confidence_score = 150`, outside `[0, 100]`. -/
def c1InsightB : RawInsight :=
  { source_analyzer := "quality_analyzer", insight_type := "quality_issue",
    confidence := some (3/2) }

/-- C1 counterexample: the stored `priority_score` of `c1Insight` is not
equal to the exact weighted sum of its sub-scores (the code rounds to
two decimals), and the confidence sub-score of `c1InsightB` exceeds 100
(the code does not clamp sub-scores to `[0, 100]`). -/
theorem c1_counterexample :
    (scoreInsight c1Insight).priority_score
        ≠ (0.4 : ℚ) * financialScore c1Insight + 0.3 * deviationScore c1Insight
          + 0.2 * urgencyScore c1Insight + 0.1 * confidenceScore c1Insight
    ∧ ¬ (confidenceScore c1InsightB ≤ 100) := by
  constructor
  · with_unfolding_all decide
  · with_unfolding_all decide

/-- Concrete instance for `c1_priority_scoring`: an equipment-failure
insight with impact $15,000, failure risk 0.75, confidence 0.8. -/
def c1WitnessInsight : RawInsight :=
  { source_analyzer := "equipment_predictor", insight_type := "equipment_failure_risk",
    financial_impact := 15000, failure_risk := some (3/4), confidence := some (4/5) }

theorem c1_priority_scoring_witness :
    (0 ≤ c1WitnessInsight.financial_impact
      ∧ (∀ fr ∈ c1WitnessInsight.failure_risk, 0 ≤ fr ∧ fr ≤ 1)
      ∧ (∀ oc ∈ c1WitnessInsight.order_count, 0 ≤ oc)
      ∧ (∀ sr ∈ c1WitnessInsight.scrap_rate, 0 ≤ sr)
      ∧ (∀ c ∈ c1WitnessInsight.confidence, 0 ≤ c ∧ c ≤ 1))
    ∧ ((scoreInsight c1WitnessInsight).priority_score
        = roundTo 2 ((0.4 : ℚ) * financialScore c1WitnessInsight
            + 0.3 * deviationScore c1WitnessInsight
            + 0.2 * urgencyScore c1WitnessInsight
            + 0.1 * confidenceScore c1WitnessInsight)
      ∧ financialScore c1WitnessInsight
          = min 100 (c1WitnessInsight.financial_impact / 100)
      ∧ (0 ≤ financialScore c1WitnessInsight ∧ financialScore c1WitnessInsight ≤ 100)
      ∧ (0 ≤ deviationScore c1WitnessInsight ∧ deviationScore c1WitnessInsight ≤ 100)
      ∧ (0 ≤ urgencyScore c1WitnessInsight ∧ urgencyScore c1WitnessInsight ≤ 100)
      ∧ (0 ≤ confidenceScore c1WitnessInsight ∧ confidenceScore c1WitnessInsight ≤ 100)) :=
  ⟨⟨by with_unfolding_all decide, by with_unfolding_all decide,
      by with_unfolding_all decide, by with_unfolding_all decide,
      by with_unfolding_all decide⟩,
    c1_priority_scoring c1WitnessInsight (by with_unfolding_all decide)
      (by with_unfolding_all decide) (by with_unfolding_all decide)
      (by with_unfolding_all decide) (by with_unfolding_all decide)⟩

/-! ### C2 -/

/-- C2 (confirmed): scored insights are stable-sorted descending by
`priority_score`; the first `min(5, N)` get level urgent, the next
`min(10, max(0, N−5))` notable, the remainder background (`N − 5` and
`N − 15` use truncated natural subtraction, i.e. `max(0, ·)`); the
concatenation of the three buckets, forgetting the assigned levels, is a
permutation of the `N` scored insights (so the buckets are pairwise
disjoint as a partition and jointly exhaustive), and its score sequence
is descending. -/
theorem c2_tiering (xs : List RawInsight) :
    (prioritizeInsights xs).urgent.length = min 5 xs.length
    ∧ (prioritizeInsights xs).notable.length = min 10 (xs.length - 5)
    ∧ (prioritizeInsights xs).background.length = xs.length - 15
    ∧ (∀ s ∈ (prioritizeInsights xs).urgent, s.priority_level = InsightPriority.urgent)
    ∧ (∀ s ∈ (prioritizeInsights xs).notable, s.priority_level = InsightPriority.notable)
    ∧ (∀ s ∈ (prioritizeInsights xs).background,
        s.priority_level = InsightPriority.background)
    ∧ (((prioritizeInsights xs).urgent ++ (prioritizeInsights xs).notable
          ++ (prioritizeInsights xs).background).map
            (setLevel InsightPriority.background)).Perm (xs.map scoreInsight)
    ∧ (((prioritizeInsights xs).urgent ++ (prioritizeInsights xs).notable
          ++ (prioritizeInsights xs).background).map
            ScoredInsight.priority_score).Sorted (· ≥ ·) := by
  refine ⟨?_, ?_, ?_, ?_, ?_, ?_, prioritize_perm xs, ?_⟩
  · simp [prioritizeInsights, pyStableSort_length]
  · simp [prioritizeInsights, pyStableSort_length]
  · simp [prioritizeInsights, pyStableSort_length]
  · intro s hs
    simp only [prioritizeInsights, List.mem_map] at hs
    obtain ⟨t, _, ht⟩ := hs
    rw [← ht]
    rfl
  · intro s hs
    simp only [prioritizeInsights, List.mem_map] at hs
    obtain ⟨t, _, ht⟩ := hs
    rw [← ht]
    rfl
  · intro s hs
    simp only [prioritizeInsights, List.mem_map] at hs
    obtain ⟨t, _, ht⟩ := hs
    rw [← ht]
    rfl
  · rw [prioritize_concat_map xs ScoredInsight.priority_score (fun lvl s => rfl)]
    have hp := pyStableSort_pairwise
      (fun a b : ScoredInsight => decide (b.priority_score ≤ a.priority_score))
      (fun a b => by
        simp only [decide_eq_true_eq]
        exact le_total _ _)
      (fun a b c hab hbc => by
        simp only [decide_eq_true_eq] at hab hbc ⊢
        exact le_trans hbc hab)
      (xs.map scoreInsight)
    have : ∀ (l : List ScoredInsight),
        l.Pairwise (fun a b => decide (b.priority_score ≤ a.priority_score) = true) →
        (l.map ScoredInsight.priority_score).Sorted (· ≥ ·) := by
      intro l hl
      apply List.pairwise_map.mpr
      exact hl.imp (fun h => by simpa using h)
    exact this _ (by simpa using hp)

/-! ### C10 -/

/-- C10 (confirmed): the feed summary field `total_financial_impact`
sums `financial_impact` over the urgent and notable buckets only; adding
the background bucket's total gives the financial impact of all `N`
scored insights of the run, so background-tier impact is excluded from
the reported total even though the background insights do appear in the
formatted feed (third conjunct). -/
theorem c10_feed_summary (xs : List RawInsight) :
    (formatPrioritizedFeed (prioritizeInsights xs)).summary.total_financial_impact
      = (((prioritizeInsights xs).urgent ++ (prioritizeInsights xs).notable).map
          ScoredInsight.financial_impact).sum
    ∧ (formatPrioritizedFeed (prioritizeInsights xs)).summary.total_financial_impact
        + ((prioritizeInsights xs).background.map ScoredInsight.financial_impact).sum
      = ((xs.map scoreInsight).map ScoredInsight.financial_impact).sum
    ∧ (formatPrioritizedFeed (prioritizeInsights xs)).background.length
        = (prioritizeInsights xs).background.length := by
  refine ⟨rfl, ?_, by simp [formatPrioritizedFeed]⟩
  have hperm := (prioritize_perm xs).map ScoredInsight.financial_impact
  have hsum := hperm.sum_eq
  have hfi : ∀ s : ScoredInsight,
      (setLevel InsightPriority.background s).financial_impact = s.financial_impact :=
    fun s => rfl
  rw [List.map_map] at hsum
  have hcomp : (ScoredInsight.financial_impact ∘ setLevel InsightPriority.background)
      = ScoredInsight.financial_impact := funext fun s => rfl
  rw [hcomp] at hsum
  rw [← hsum]
  show (((prioritizeInsights xs).urgent ++ (prioritizeInsights xs).notable).map
      ScoredInsight.financial_impact).sum + _ = _
  rw [List.append_assoc, List.map_append, List.sum_append, List.map_append,
    List.sum_append, List.map_append, List.sum_append, add_assoc]

/-! ## Trend detector (`analytics/trend_detector.py`) -/

/-- The loop of `TrendDetector._find_divergence_point`: scan the points,
counting consecutive points whose absolute deviation from
`baseline_avg` exceeds the threshold; remember the index where the
current run started; return it as soon as the run reaches 3.
`idx` is the index of the head of `points` in the full series,
`consec` is `consecutive_divergent`, `start` is `divergence_start`. -/
def findDivGo (avg thr : ℚ) : List ℚ → ℕ → ℕ → Option ℕ → Option ℕ
  | [], _, _, _ => none
  | v :: rest, idx, consec, start =>
    if thr < |v - avg| then
      let consec1 := consec + 1
      let start1 := if consec1 = 1 then some idx else start
      if 3 ≤ consec1 then start1
      else findDivGo avg thr rest (idx + 1) consec1 start1
    else
      findDivGo avg thr rest (idx + 1) 0 none

/-- `TrendDetector._find_divergence_point`, returning the index of the
reported divergence-start point (the source returns the point record
itself).  Threshold: `baseline_std * 2 if baseline_std > 0 else
baseline_avg * 0.2`. -/
def findDivergencePoint (vals : List ℚ) (baseline_avg baseline_std : ℚ) : Option ℕ :=
  if vals.length < 3 then none
  else
    let thr := if 0 < baseline_std then baseline_std * 2 else baseline_avg * (0.2 : ℚ)
    findDivGo baseline_avg thr vals 0 0 none

/-- Spec-side predicate: the point at index `j` deviates from
`baseline_avg` by strictly more than the threshold. -/
def outOfThreshold (vals : List ℚ) (avg thr : ℚ) (j : ℕ) : Prop :=
  j < vals.length ∧ thr < |vals.getD j 0 - avg|

instance (vals : List ℚ) (avg thr : ℚ) (j : ℕ) :
    Decidable (outOfThreshold vals avg thr j) :=
  inferInstanceAs (Decidable (_ ∧ _))

/-- Spec-side predicate: indices `i`, `i+1`, `i+2` are all out of
threshold (3 consecutive divergent points starting at `i`). -/
def tripleAt (vals : List ℚ) (avg thr : ℚ) (i : ℕ) : Prop :=
  outOfThreshold vals avg thr i ∧ outOfThreshold vals avg thr (i + 1)
    ∧ outOfThreshold vals avg thr (i + 2)

instance (vals : List ℚ) (avg thr : ℚ) (i : ℕ) : Decidable (tripleAt vals avg thr i) :=
  inferInstanceAs (Decidable (_ ∧ _ ∧ _))

/-- Spec-side recursion: index of the first `i` with three consecutive
out-of-threshold points at `i`, `i+1`, `i+2`. -/
def leastTripleStart (avg thr : ℚ) : List ℚ → Option ℕ
  | v1 :: v2 :: v3 :: rest =>
    if thr < |v1 - avg| ∧ thr < |v2 - avg| ∧ thr < |v3 - avg| then some 0
    else (leastTripleStart avg thr (v2 :: v3 :: rest)).map (· + 1)
  | _ => none

/-! ### Helper lemmas for the divergence scan -/

lemma leastTripleStart_cons_eq_map (avg thr v : ℚ) (rest : List ℚ)
    (h : ∀ v2 v3 rest2, rest = v2 :: v3 :: rest2 →
      ¬ (thr < |v - avg| ∧ thr < |v2 - avg| ∧ thr < |v3 - avg|)) :
    leastTripleStart avg thr (v :: rest)
      = (leastTripleStart avg thr rest).map (· + 1) := by
  match rest with
  | [] => rfl
  | [v2] => rfl
  | v2 :: v3 :: rest2 =>
    have hneg := h v2 v3 rest2 rfl
    show (if thr < |v - avg| ∧ thr < |v2 - avg| ∧ thr < |v3 - avg| then some 0
      else (leastTripleStart avg thr (v2 :: v3 :: rest2)).map (· + 1)) = _
    rw [if_neg hneg]

lemma opt_map_map_add (o : Option ℕ) (idx : ℕ) :
    (o.map (· + 1)).map (· + idx) = o.map (· + (idx + 1)) := by
  cases o with
  | none => rfl
  | some k =>
    show some (k + 1 + idx) = some (k + (idx + 1))
    congr 1
    omega

lemma leastTripleStart_short (avg thr : ℚ) (l : List ℚ) (h : l.length < 3) :
    leastTripleStart avg thr l = none := by
  match l, h with
  | [], _ => rfl
  | [v], _ => rfl
  | [v1, v2], _ => rfl

/-- Closed form of the `_find_divergence_point` scan loop: starting with
a run of `c ∈ {0, 1, 2}` divergent points just before `l` whose start
the loop has recorded in `s`, the loop returns `s` if the first `3 − c`
points of `l` extend that run to length 3, and otherwise returns the
first 3-consecutive-divergent start inside `l` (offset by `idx`). -/
lemma findDivGo_spec (avg thr : ℚ) :
    ∀ (l : List ℚ) (idx c : ℕ) (s : Option ℕ), c ≤ 2 →
    findDivGo avg thr l idx c s =
      if c ≠ 0 ∧ 3 - c ≤ l.length
          ∧ (l.take (3 - c)).all (fun v => decide (thr < |v - avg|)) = true
      then s
      else (leastTripleStart avg thr l).map (· + idx) := by
  intro l
  induction l with
  | nil =>
    intro idx c s hc
    have hcond : ¬ (c ≠ 0 ∧ 3 - c ≤ ([] : List ℚ).length
        ∧ (([] : List ℚ).take (3 - c)).all (fun v => decide (thr < |v - avg|)) = true) := by
      rintro ⟨h0, hlen, _⟩
      have hnil : ([] : List ℚ).length = 0 := rfl
      omega
    rw [if_neg hcond]
    rfl
  | cons v rest ih =>
    intro idx c s hc
    by_cases hdiv : thr < |v - avg|
    · -- the head point is divergent
      interval_cases c
      · -- c = 0 : start a new run at idx
        have hstep : findDivGo avg thr (v :: rest) idx 0 s
            = findDivGo avg thr rest (idx + 1) 1 (some idx) := by
          show (if thr < |v - avg| then _ else _) = _
          rw [if_pos hdiv]
          rfl
        rw [hstep, ih (idx + 1) 1 (some idx) (by omega)]
        by_cases hnext : 2 ≤ rest.length
            ∧ (rest.take 2).all (fun v => decide (thr < |v - avg|)) = true
        · rw [if_pos ⟨by omega, hnext.1, hnext.2⟩, if_neg (fun h => h.1 rfl)]
          symm
          match rest, hnext with
          | v2 :: v3 :: rest2, hnext =>
            have hP : thr < |v2 - avg| ∧ thr < |v3 - avg| := by
              have := hnext.2
              simp only [List.take, List.all_cons, List.all_nil, Bool.and_eq_true,
                decide_eq_true_eq] at this
              exact ⟨this.1, this.2.1⟩
            show ((if thr < |v - avg| ∧ thr < |v2 - avg| ∧ thr < |v3 - avg| then some 0
              else (leastTripleStart avg thr (v2 :: v3 :: rest2)).map (· + 1))).map
                  (· + idx) = some idx
            rw [if_pos ⟨hdiv, hP.1, hP.2⟩]
            show some (0 + idx) = some idx
            rw [Nat.zero_add]
        · rw [if_neg (by
            rintro ⟨_, hlen, hall⟩
            exact hnext ⟨hlen, hall⟩), if_neg (fun h => h.1 rfl)]
          have hcast : leastTripleStart avg thr (v :: rest)
              = (leastTripleStart avg thr rest).map (· + 1) := by
            apply leastTripleStart_cons_eq_map
            intro v2 v3 rest2 hrest
            rintro ⟨_, h2, h3⟩
            apply hnext
            subst hrest
            constructor
            · simp only [List.length_cons]
              omega
            · simp only [List.take, List.all_cons, List.all_nil, Bool.and_eq_true,
                decide_eq_true_eq]
              exact ⟨h2, h3, trivial⟩
          rw [hcast, opt_map_map_add]
      · -- c = 1 : run extends to length 2
        have hstep : findDivGo avg thr (v :: rest) idx 1 s
            = findDivGo avg thr rest (idx + 1) 2 s := by
          show (if thr < |v - avg| then _ else _) = _
          rw [if_pos hdiv]
          rfl
        rw [hstep, ih (idx + 1) 2 s (by omega)]
        by_cases hnext : 1 ≤ rest.length
            ∧ (rest.take 1).all (fun v => decide (thr < |v - avg|)) = true
        · rw [if_pos ⟨by omega, hnext.1, hnext.2⟩,
            if_pos ⟨by omega, by simp only [List.length_cons]; omega, by
              show ((v :: rest).take 2).all _ = true
              match rest, hnext with
              | v2 :: rest2, hnext =>
                have h2 : thr < |v2 - avg| := by
                  have := hnext.2
                  simp only [List.take, List.all_cons, List.all_nil, Bool.and_eq_true,
                    decide_eq_true_eq] at this
                  exact this.1
                simp only [List.take, List.all_cons, List.all_nil, Bool.and_eq_true,
                  decide_eq_true_eq]
                exact ⟨hdiv, h2, trivial⟩⟩]
        · rw [if_neg (by rintro ⟨_, hlen, hall⟩; exact hnext ⟨hlen, hall⟩),
            if_neg (by
              rintro ⟨_, hlen, hall⟩
              apply hnext
              match rest, hlen, hall with
              | v2 :: rest2, hlen, hall =>
                have := hall
                simp only [List.take, List.all_cons, List.all_nil, Bool.and_eq_true,
                  decide_eq_true_eq] at this
                refine ⟨by simp only [List.length_cons]; omega, ?_⟩
                simp only [List.take, List.all_cons, List.all_nil, Bool.and_eq_true,
                  decide_eq_true_eq]
                exact ⟨this.2.1, trivial⟩)]
          have hcast : leastTripleStart avg thr (v :: rest)
              = (leastTripleStart avg thr rest).map (· + 1) := by
            apply leastTripleStart_cons_eq_map
            intro v2 v3 rest2 hrest
            rintro ⟨_, h2, h3⟩
            apply hnext
            subst hrest
            refine ⟨by simp only [List.length_cons]; omega, ?_⟩
            simp only [List.take, List.all_cons, List.all_nil, Bool.and_eq_true,
              decide_eq_true_eq]
            exact ⟨h2, trivial⟩
          rw [hcast, opt_map_map_add]
      · -- c = 2 : run reaches length 3, return the recorded start
        have hstep : findDivGo avg thr (v :: rest) idx 2 s = s := by
          show (if thr < |v - avg| then _ else _) = _
          rw [if_pos hdiv]
          rfl
        rw [hstep, if_pos ⟨by omega, by simp only [List.length_cons]; omega, by
          show ((v :: rest).take 1).all _ = true
          simp only [List.take, List.all_cons, List.all_nil, Bool.and_eq_true,
            decide_eq_true_eq]
          exact ⟨hdiv, trivial⟩⟩]
    · -- the head point is within threshold: reset the run
      have hstep : findDivGo avg thr (v :: rest) idx c s
          = findDivGo avg thr rest (idx + 1) 0 none := by
        show (if thr < |v - avg| then _ else _) = _
        rw [if_neg hdiv]
      rw [hstep, ih (idx + 1) 0 none (by omega), if_neg (fun h => h.1 rfl)]
      have hcondL : ¬ (c ≠ 0 ∧ 3 - c ≤ (v :: rest).length
          ∧ ((v :: rest).take (3 - c)).all (fun v => decide (thr < |v - avg|)) = true) := by
        rintro ⟨h0, hlen, hall⟩
        have h3c : 1 ≤ 3 - c := by omega
        match e : 3 - c, h3c with
        | k + 1, _ =>
          rw [e] at hall
          simp only [List.take, List.all_cons, Bool.and_eq_true,
            decide_eq_true_eq] at hall
          exact hdiv hall.1
      rw [if_neg hcondL]
      have hcast : leastTripleStart avg thr (v :: rest)
          = (leastTripleStart avg thr rest).map (· + 1) := by
        apply leastTripleStart_cons_eq_map
        intro v2 v3 rest2 hrest
        rintro ⟨h1, _, _⟩
        exact hdiv h1
      rw [hcast, opt_map_map_add]

lemma outOfThreshold_cons_succ (avg thr v : ℚ) (rest : List ℚ) (j : ℕ) :
    outOfThreshold (v :: rest) avg thr (j + 1) ↔ outOfThreshold rest avg thr j := by
  unfold outOfThreshold
  rw [List.getD_cons_succ, List.length_cons]
  exact and_congr_left (fun _ => Nat.succ_lt_succ_iff)

lemma tripleAt_cons_succ (avg thr v : ℚ) (rest : List ℚ) (j : ℕ) :
    tripleAt (v :: rest) avg thr (j + 1) ↔ tripleAt rest avg thr j := by
  unfold tripleAt
  rw [outOfThreshold_cons_succ]
  have h2 : j + 1 + 1 = (j + 1) + 1 := rfl
  rw [outOfThreshold_cons_succ]
  have h3 : j + 1 + 2 = (j + 2) + 1 := by omega
  rw [h3, outOfThreshold_cons_succ]

lemma tripleAt_zero_iff (avg thr v1 v2 v3 : ℚ) (rest2 : List ℚ) :
    tripleAt (v1 :: v2 :: v3 :: rest2) avg thr 0
      ↔ (thr < |v1 - avg| ∧ thr < |v2 - avg| ∧ thr < |v3 - avg|) := by
  unfold tripleAt outOfThreshold
  simp only [List.length_cons, List.getD_cons_zero, List.getD_cons_succ]
  constructor
  · rintro ⟨⟨_, h1⟩, ⟨_, h2⟩, ⟨_, h3⟩⟩
    exact ⟨h1, h2, h3⟩
  · rintro ⟨h1, h2, h3⟩
    exact ⟨⟨by omega, h1⟩, ⟨by omega, h2⟩, ⟨by omega, h3⟩⟩

lemma tripleAt_short (avg thr : ℚ) (l : List ℚ) (h : l.length < 3) (i : ℕ) :
    ¬ tripleAt l avg thr i := by
  rintro ⟨_, _, h3, _⟩
  omega

/-- `leastTripleStart` returns exactly the least index at which three
consecutive out-of-threshold points start. -/
lemma leastTripleStart_spec (avg thr : ℚ) :
    ∀ (l : List ℚ) (i : ℕ),
      leastTripleStart avg thr l = some i ↔
        tripleAt l avg thr i ∧ ∀ j < i, ¬ tripleAt l avg thr j
  | [], i => by
    constructor
    · intro h
      exact absurd h (by simp [leastTripleStart])
    · rintro ⟨ht, _⟩
      exact absurd ht (tripleAt_short avg thr [] (by simp) i)
  | [v], i => by
    constructor
    · intro h
      exact absurd h (by simp [leastTripleStart])
    · rintro ⟨ht, _⟩
      exact absurd ht (tripleAt_short avg thr [v] (by simp) i)
  | [v1, v2], i => by
    constructor
    · intro h
      exact absurd h (by simp [leastTripleStart])
    · rintro ⟨ht, _⟩
      exact absurd ht (tripleAt_short avg thr [v1, v2] (by simp) i)
  | v1 :: v2 :: v3 :: rest2, i => by
    have ih := leastTripleStart_spec avg thr (v2 :: v3 :: rest2)
    by_cases hhead : thr < |v1 - avg| ∧ thr < |v2 - avg| ∧ thr < |v3 - avg|
    · have he : leastTripleStart avg thr (v1 :: v2 :: v3 :: rest2) = some 0 := by
        show (if _ then some 0 else _) = some 0
        rw [if_pos hhead]
      rw [he]
      constructor
      · intro h
        have h0 : i = 0 := by
          have := Option.some_injective _ h.symm
          omega
        subst h0
        refine ⟨(tripleAt_zero_iff avg thr v1 v2 v3 rest2).mpr hhead, ?_⟩
        intro j hj
        omega
      · rintro ⟨ht, hmin⟩
        by_cases h0 : i = 0
        · rw [h0]
        · exact absurd ((tripleAt_zero_iff avg thr v1 v2 v3 rest2).mpr hhead)
            (hmin 0 (by omega))
    · have he : leastTripleStart avg thr (v1 :: v2 :: v3 :: rest2)
          = (leastTripleStart avg thr (v2 :: v3 :: rest2)).map (· + 1) := by
        show (if _ then some 0 else _) = _
        rw [if_neg hhead]
      rw [he]
      constructor
      · intro h
        rcases hk : leastTripleStart avg thr (v2 :: v3 :: rest2) with _ | k
        · rw [hk] at h
          exact absurd h (by simp)
        · rw [hk] at h
          have h2 : k + 1 = i := Option.some_injective _ h
          subst h2
          have hrec := (ih k).mp hk
          refine ⟨(tripleAt_cons_succ avg thr v1 (v2 :: v3 :: rest2) k).mpr hrec.1, ?_⟩
          intro j hj
          match j with
          | 0 =>
            intro hcontra
            exact hhead ((tripleAt_zero_iff avg thr v1 v2 v3 rest2).mp hcontra)
          | jj + 1 =>
            intro hcontra
            exact hrec.2 jj (by omega)
              ((tripleAt_cons_succ avg thr v1 (v2 :: v3 :: rest2) jj).mp hcontra)
      · rintro ⟨ht, hmin⟩
        match i with
        | 0 =>
          exact absurd ((tripleAt_zero_iff avg thr v1 v2 v3 rest2).mp ht) hhead
        | ii + 1 =>
          have hrec : leastTripleStart avg thr (v2 :: v3 :: rest2) = some ii := by
            apply (ih ii).mpr
            refine ⟨(tripleAt_cons_succ avg thr v1 (v2 :: v3 :: rest2) ii).mp ht, ?_⟩
            intro j hj hcontra
            exact hmin (j + 1) (by omega)
              ((tripleAt_cons_succ avg thr v1 (v2 :: v3 :: rest2) j).mpr hcontra)
          rw [hrec]
          rfl

lemma leastTripleStart_none (avg thr : ℚ) :
    ∀ l : List ℚ, leastTripleStart avg thr l = none ↔ ∀ i, ¬ tripleAt l avg thr i
  | [] => iff_of_true rfl (tripleAt_short avg thr [] (by simp))
  | [v] => iff_of_true rfl (tripleAt_short avg thr [v] (by simp))
  | [v1, v2] => iff_of_true rfl (tripleAt_short avg thr [v1, v2] (by simp))
  | v1 :: v2 :: v3 :: rest2 => by
    have ih := leastTripleStart_none avg thr (v2 :: v3 :: rest2)
    by_cases hhead : thr < |v1 - avg| ∧ thr < |v2 - avg| ∧ thr < |v3 - avg|
    · have he : leastTripleStart avg thr (v1 :: v2 :: v3 :: rest2) = some 0 := by
        show (if _ then some 0 else _) = some 0
        rw [if_pos hhead]
      rw [he]
      constructor
      · intro h
        exact absurd h (by simp)
      · intro h
        exact absurd ((tripleAt_zero_iff avg thr v1 v2 v3 rest2).mpr hhead) (h 0)
    · have he : leastTripleStart avg thr (v1 :: v2 :: v3 :: rest2)
          = (leastTripleStart avg thr (v2 :: v3 :: rest2)).map (· + 1) := by
        show (if _ then some 0 else _) = _
        rw [if_neg hhead]
      rw [he]
      constructor
      · intro h i
        have hnone : leastTripleStart avg thr (v2 :: v3 :: rest2) = none := by
          rcases hk : leastTripleStart avg thr (v2 :: v3 :: rest2) with _ | k
          · rfl
          · rw [hk] at h
            exact absurd h (by simp)
        match i with
        | 0 =>
          intro hcontra
          exact hhead ((tripleAt_zero_iff avg thr v1 v2 v3 rest2).mp hcontra)
        | ii + 1 =>
          intro hcontra
          exact (ih.mp hnone) ii
            ((tripleAt_cons_succ avg thr v1 (v2 :: v3 :: rest2) ii).mp hcontra)
      · intro h
        have : ∀ i, ¬ tripleAt (v2 :: v3 :: rest2) avg thr i := by
          intro i hcontra
          exact h (i + 1)
            ((tripleAt_cons_succ avg thr v1 (v2 :: v3 :: rest2) i).mpr hcontra)
        rw [ih.mpr this]
        rfl

lemma findDivergencePoint_eq_lts (vals : List ℚ) (avg std : ℚ)
    (h3 : ¬ vals.length < 3) :
    findDivergencePoint vals avg std
      = leastTripleStart avg (if 0 < std then std * 2 else avg * (0.2 : ℚ)) vals := by
  unfold findDivergencePoint
  rw [if_neg h3, findDivGo_spec avg _ vals 0 0 none (by omega),
    if_neg (fun h => h.1 rfl)]
  rcases leastTripleStart avg (if 0 < std then std * 2 else avg * (0.2 : ℚ)) vals
      with _ | k
  · rfl
  · show some (k + 0) = some k
    rw [Nat.add_zero]

/-! ### C3 -/

/-- C3 (confirmed): with a genuine (nonnegative) baseline standard
deviation, `_find_divergence_point` returns no divergence for series of
fewer than 3 points; otherwise it reports a divergence exactly when 3
consecutive points deviate from `baseline_avg` by strictly more than the
threshold (`2·baseline_std`, or `0.2·baseline_avg` when `baseline_std`
is zero), and the reported start index is the least index at which such
a run of 3 begins — the first of those 3 points, not the last. -/
theorem c3_divergence_start (vals : List ℚ) (baseline_avg baseline_std : ℚ)
    (hstd : 0 ≤ baseline_std) :
    (vals.length < 3 → findDivergencePoint vals baseline_avg baseline_std = none)
    ∧ ((findDivergencePoint vals baseline_avg baseline_std).isSome ↔
        ∃ i, tripleAt vals baseline_avg
          (if baseline_std = 0 then baseline_avg * (0.2 : ℚ) else baseline_std * 2) i)
    ∧ (∀ i, findDivergencePoint vals baseline_avg baseline_std = some i →
        tripleAt vals baseline_avg
          (if baseline_std = 0 then baseline_avg * (0.2 : ℚ) else baseline_std * 2) i
        ∧ ∀ j < i, ¬ tripleAt vals baseline_avg
            (if baseline_std = 0 then baseline_avg * (0.2 : ℚ) else baseline_std * 2) j) := by
  have hthr : (if 0 < baseline_std then baseline_std * 2 else baseline_avg * (0.2 : ℚ))
      = (if baseline_std = 0 then baseline_avg * (0.2 : ℚ) else baseline_std * 2) := by
    rcases eq_or_lt_of_le hstd with h | h
    · rw [if_neg (by rw [← h]; exact lt_irrefl 0), if_pos h.symm]
    · rw [if_pos h, if_neg (by exact fun he => absurd (he ▸ h) (lt_irrefl 0))]
  refine ⟨?_, ?_, ?_⟩
  · intro hlen
    unfold findDivergencePoint
    rw [if_pos hlen]
  · by_cases h3 : vals.length < 3
    · have hnone : findDivergencePoint vals baseline_avg baseline_std = none := by
        unfold findDivergencePoint
        rw [if_pos h3]
      rw [hnone]
      simp only [Option.isSome_none]
      constructor
      · intro h
        exact absurd h (by simp)
      · rintro ⟨i, hi⟩
        exact absurd hi (tripleAt_short _ _ vals h3 i)
    · rw [findDivergencePoint_eq_lts vals baseline_avg baseline_std h3, hthr]
      constructor
      · intro hsome
        rcases hk : leastTripleStart baseline_avg _ vals with _ | k
        · rw [hk] at hsome
          exact absurd hsome (by simp)
        · exact ⟨k, ((leastTripleStart_spec _ _ vals k).mp hk).1⟩
      · rintro ⟨i, hi⟩
        rcases hk : leastTripleStart baseline_avg
            (if baseline_std = 0 then baseline_avg * (0.2 : ℚ) else baseline_std * 2)
            vals with _ | k
        · exact absurd hi (((leastTripleStart_none _ _ vals).mp hk) i)
        · rfl
  · intro i hi
    by_cases h3 : vals.length < 3
    · have hnone : findDivergencePoint vals baseline_avg baseline_std = none := by
        unfold findDivergencePoint
        rw [if_pos h3]
      rw [hnone] at hi
      exact absurd hi (by simp)
    · rw [findDivergencePoint_eq_lts vals baseline_avg baseline_std h3, hthr] at hi
      exact (leastTripleStart_spec _ _ vals i).mp hi

/-- Concrete instance for `c3_divergence_start`: baseline 10 with std 1
(threshold 2); the last three points of `[10, 10, 10, 0, 0, 0]` are a
divergent run starting at index 3. -/
theorem c3_divergence_start_witness :
    ((0 : ℚ) ≤ 1)
    ∧ (([10, 10, 10, 0, 0, 0] : List ℚ).length < 3 →
        findDivergencePoint [10, 10, 10, 0, 0, 0] 10 1 = none)
    ∧ ((findDivergencePoint [10, 10, 10, 0, 0, 0] 10 1).isSome ↔
        ∃ i, tripleAt [10, 10, 10, 0, 0, 0] 10
          (if (1 : ℚ) = 0 then 10 * (0.2 : ℚ) else 1 * 2) i)
    ∧ (∀ i, findDivergencePoint [10, 10, 10, 0, 0, 0] 10 1 = some i →
        tripleAt [10, 10, 10, 0, 0, 0] 10
          (if (1 : ℚ) = 0 then 10 * (0.2 : ℚ) else 1 * 2) i
        ∧ ∀ j < i, ¬ tripleAt [10, 10, 10, 0, 0, 0] 10
            (if (1 : ℚ) = 0 then 10 * (0.2 : ℚ) else 1 * 2) j) :=
  ⟨by norm_num, c3_divergence_start [10, 10, 10, 0, 0, 0] 10 1 (by norm_num)⟩

/-- Return value of `TrendDetector.calculate_deviation`. -/
structure DeviationResult where
  deviation_pct : ℚ
  deviation_abs : ℚ
  multiplier : ℚ
  direction : String
deriving DecidableEq

/-- `TrendDetector.calculate_deviation`.  On a zero baseline the source
returns the degenerate record without dividing; otherwise the three
numeric fields are rounded as in the source (`round(·, 1)` for the
percentage, `round(·, 2)` for the rest; the inner
`if baseline_avg != 0` guard on `multiplier` is always true on this
branch). -/
def calculateDeviation (current_value baseline_avg : ℚ) : DeviationResult :=
  if baseline_avg = 0 then
    { deviation_pct := 0
      deviation_abs := current_value
      multiplier := 0
      direction := if 0 < current_value then "higher" else "lower" }
  else
    { deviation_pct := roundTo 1 ((current_value - baseline_avg) / baseline_avg * 100)
      deviation_abs := roundTo 2 (current_value - baseline_avg)
      multiplier := roundTo 2 (current_value / baseline_avg)
      direction := if baseline_avg < current_value then "higher" else "lower" }

/-! ### C8 -/

/-- C8 (confirmed): `calculate_deviation(x, 0)` is total (the
division-by-zero branch is guarded, so no exception is raised) and
returns `deviation_pct = 0`, `deviation_abs = x`, `multiplier = 0`, with
direction `higher` exactly when `x > 0` and `lower` otherwise — the
documented degenerate-case policy. -/
theorem c8_zero_baseline_deviation (x : ℚ) :
    calculateDeviation x 0
      = { deviation_pct := 0, deviation_abs := x, multiplier := 0,
          direction := if 0 < x then "higher" else "lower" }
    ∧ (calculateDeviation x 0).deviation_pct = 0
    ∧ ((calculateDeviation x 0).direction = "higher" ↔ 0 < x)
    ∧ ((calculateDeviation x 0).direction = "lower" ↔ ¬ 0 < x) := by
  have he : calculateDeviation x 0
      = { deviation_pct := 0, deviation_abs := x, multiplier := 0,
          direction := if 0 < x then "higher" else "lower" } := by
    unfold calculateDeviation
    rw [if_pos rfl]
  refine ⟨he, by rw [he], ?_, ?_⟩
  · rw [he]
    by_cases hx : 0 < x
    · simp only [if_pos hx]
      exact iff_of_true trivial hx
    · simp only [if_neg hx]
      constructor
      · intro h
        exact absurd h (by decide)
      · intro h
        exact absurd h hx
  · rw [he]
    by_cases hx : 0 < x
    · simp only [if_pos hx]
      constructor
      · intro h
        exact absurd h (by decide)
      · intro h
        exact absurd hx h
    · simp only [if_neg hx]
      exact iff_of_true trivial hx

/-! ## Work-order records

One record of the `work_orders` table, restricted to the fields the
analytics components read.  `Option` models missing / null columns;
Python truthiness (`if wo.get('k')`) additionally treats `0`, `0.0` and
`""` as absent, which is checked explicitly at each use site.
`upload_day` embeds `upload_timestamp` as an integer day number. -/
structure WorkOrder where
  upload_day : ℤ := 0
  material_code : Option String := none
  actual_material_cost : Option ℚ := none
  operation_type : Option String := none
  actual_labor_hours : Option ℚ := none
  units_scrapped : Option ℚ := none
  units_produced : Option ℚ := none
  actual_quantity : Option ℚ := none
  equipment_id : Option String := none
  machine_id : Option String := none
  supplier_id : Option String := none
  batch_id : Option String := none
  shift : Option String := none
deriving DecidableEq

/-- Python truthiness for an optional string column. -/
def strTruthy (o : Option String) : Bool :=
  match o with
  | none => false
  | some s => !(s = "")

/-- Python truthiness for an optional numeric column. -/
def numTruthy (o : Option ℚ) : Bool :=
  match o with
  | none => false
  | some q => !(q = 0)

/-- Python `a or b` on optional string columns (used for
`wo.get('equipment_id') or wo.get('machine_id')` and
`wo.get('units_produced') or wo.get('actual_quantity')`). -/
def orStr (a b : Option String) : Option String :=
  if strTruthy a then a else b

/-- Python `a or b` on optional numeric columns. -/
def orNum (a b : Option ℚ) : Option ℚ :=
  if numTruthy a then a else b

/-! ## Degradation detector (`analytics/degradation_detector.py`) -/

/-- Return value of `DegradationDetector._calculate_trend`. -/
structure TrendCalc where
  slope : ℚ
  early_avg : ℚ
  recent_avg : ℚ
  slope_significance : ℚ
deriving DecidableEq

/-- `DegradationDetector._calculate_trend`: compare the average of the
first third of the series (`values[:third]`) with the average of the
last third (`values[-third:]`), `third = max(n // 3, 1)`. -/
def calculateTrend (values : List ℚ) : Option TrendCalc :=
  if values.length < 2 then none
  else
    let n := values.length
    let third := max (n / 3) 1
    let early_values := values.take third
    let recent_values := values.drop (n - third)
    let early_avg := early_values.sum / (early_values.length : ℚ)
    let recent_avg := recent_values.sum / (recent_values.length : ℚ)
    let slope := (recent_avg - early_avg) / (n : ℚ)
    let slope_significance :=
      if 0 < early_avg then |recent_avg - early_avg| / early_avg else 0
    some { slope, early_avg, recent_avg, slope_significance }

/-- The equipment time series extracted by
`detect_equipment_degradation`: one `(date, hours)` point per record
with a truthy `actual_labor_hours`. -/
def equipPoints (rows : List WorkOrder) : List (ℤ × ℚ) :=
  rows.filterMap (fun wo =>
    match wo.actual_labor_hours with
    | some h => if h = 0 then none else some (wo.upload_day, h)
    | none => none)

/-- A `DegradationEvent` as assembled by `detect_equipment_degradation`
(the free-text `recommendation` and the constant `status` /
`trend_direction` strings are omitted). -/
structure DegradationEvent where
  equipment_id : String
  degradation_pct : ℚ
  early_avg : ℚ
  recent_avg : ℚ
  slope : ℚ
  days_analyzed : ℤ
  data_points : ℕ
  days_to_threshold : Option ℤ
deriving DecidableEq

/-- `DegradationDetector.detect_equipment_degradation`, as a function of
the queried records.  `int(x)` on the positive extrapolation is floor. -/
def detectEquipmentDegradation (equipment_id : String) (window_days : ℤ)
    (rows : List WorkOrder) : Option DegradationEvent :=
  if rows.length < 5 then none
  else
    let data_points := equipPoints rows
    if data_points.length < 5 then none
    else
      match calculateTrend (data_points.map (fun p => p.2)) with
      | none => none
      | some trend =>
        if 0 < trend.slope ∧ (0.3 : ℚ) < trend.slope_significance then
          let degradation_pct :=
            (trend.recent_avg - trend.early_avg) / trend.early_avg * 100
          let acceptable_threshold := trend.early_avg * 2
          let remaining := acceptable_threshold - trend.recent_avg
          let days_to_threshold :=
            if 0 < remaining then some (remaining / (trend.slope * 1)).floor else none
          some { equipment_id
                 degradation_pct := roundTo 1 degradation_pct
                 early_avg := roundTo 2 trend.early_avg
                 recent_avg := roundTo 2 trend.recent_avg
                 slope := roundTo 4 trend.slope
                 days_analyzed := window_days
                 data_points := data_points.length
                 days_to_threshold }
        else none

/-- `DegradationDetector._find_inflection_point`: 3-point moving
average, then the index of the largest jump between consecutive
windows, shifted by `window // 2 = 1`; returns `(date, days_ago)`. -/
def findInflectionPoint (now : ℤ) (dates : List ℤ) (values : List ℚ) :
    Option (ℤ × ℤ) :=
  if values.length < 3 then none
  else
    let window := 3
    let moving_avgs := (List.range (values.length - window + 1)).map
      (fun i => ((values.drop i).take window).sum / (window : ℚ))
    let scan := (moving_avgs.zip moving_avgs.tail).foldl
      (fun (acc : ℕ × ℚ × ℕ) pr =>
        let j := acc.1
        let change := |pr.2 - pr.1|
        if acc.2.1 < change then (j + 1, change, j + 2) else (j + 1, acc.2.1, acc.2.2))
      (0, 0, 0)
    let inflection_idx := scan.2.2
    if inflection_idx < dates.length then
      some (dates.getD inflection_idx 0, now - dates.getD inflection_idx 0)
    else none

/-- `DegradationDetector._detect_supplier_change`: needs an inflection
point and at least two distinct truthy suppliers in the window. -/
def detectSupplierChangeHint (points_suppliers : List (Option String))
    (inflection : Option (ℤ × ℤ)) : Option String :=
  match inflection with
  | none => none
  | some _ =>
    let suppliers := points_suppliers.filterMap (fun s =>
      match s with
      | some v => if v = "" then none else some v
      | none => none)
    if 1 < suppliers.dedup.length then some "Supplier changed during this period"
    else none

/-- `DegradationDetector._detect_equipment_pattern`. -/
def detectEquipmentPatternHint (points_equipment : List (Option String)) :
    Option String :=
  let equipment_list := points_equipment.filterMap (fun e =>
    match e with
    | some v => if v = "" then none else some v
    | none => none)
  if equipment_list ≠ [] ∧ 1 < equipment_list.dedup.length then
    some "Multiple equipment used - check for equipment-specific patterns"
  else none

/-- The material-cost series extracted by `detect_cost_trend`:
`(date, cost, supplier)` per record with truthy `actual_material_cost`. -/
def costPoints (rows : List WorkOrder) : List (ℤ × ℚ × Option String) :=
  rows.filterMap (fun wo =>
    match wo.actual_material_cost with
    | some c => if c = 0 then none else some (wo.upload_day, c, wo.supplier_id)
    | none => none)

/-- A `CostTrend` result as assembled by `detect_cost_trend`
(free-text `recommendation`, constant `status` omitted). -/
structure CostTrendEvent where
  material_code : String
  trend_direction : String
  cost_change_pct : ℚ
  early_avg : ℚ
  recent_avg : ℚ
  slope : ℚ
  days_analyzed : ℤ
  data_points : ℕ
  inflection_date : Option ℤ
  inflection_days_ago : Option ℤ
  supplier_correlation : Option String
deriving DecidableEq

/-- `DegradationDetector.detect_cost_trend`, as a function of the
queried records. -/
def detectCostTrend (material_code : String) (window_days now : ℤ)
    (rows : List WorkOrder) : Option CostTrendEvent :=
  if rows.length < 5 then none
  else
    let data_points := costPoints rows
    if data_points.length < 5 then none
    else
      match calculateTrend (data_points.map (fun p => p.2.1)) with
      | none => none
      | some trend =>
        if 0 < |trend.slope| ∧ (0.3 : ℚ) < trend.slope_significance then
          let cost_change_pct :=
            (trend.recent_avg - trend.early_avg) / trend.early_avg * 100
          let inflection := findInflectionPoint now
            (data_points.map (fun p => p.1)) (data_points.map (fun p => p.2.1))
          let supplier_change := detectSupplierChangeHint
            (data_points.map (fun p => p.2.2)) inflection
          some { material_code
                 trend_direction := if 0 < trend.slope then "increasing" else "decreasing"
                 cost_change_pct := roundTo 1 cost_change_pct
                 early_avg := roundTo 2 trend.early_avg
                 recent_avg := roundTo 2 trend.recent_avg
                 slope := roundTo 4 trend.slope
                 days_analyzed := window_days
                 data_points := data_points.length
                 inflection_date := inflection.map (fun p => p.1)
                 inflection_days_ago := inflection.map (fun p => p.2)
                 supplier_correlation := supplier_change }
        else none

/-- The scrap-rate series extracted by `detect_quality_drift`:
`(date, scrap_rate, supplier, equipment)` per record with a truthy,
positive production count (`units_produced or actual_quantity`). -/
def scrapPoints (rows : List WorkOrder) :
    List (ℤ × ℚ × Option String × Option String) :=
  rows.filterMap (fun wo =>
    match orNum wo.units_produced wo.actual_quantity with
    | some q =>
      if 0 < q then
        some (wo.upload_day, (wo.units_scrapped.getD 0) / q * 100,
          wo.supplier_id, orStr wo.equipment_id wo.machine_id)
      else none
    | none => none)

/-- A `QualityDrift` result as assembled by `detect_quality_drift`
(free-text `recommendation`, constant `status` / `drift_direction`
omitted). -/
structure QualityDriftEvent where
  material_code : String
  early_scrap_rate : ℚ
  recent_scrap_rate : ℚ
  drift_pct : ℚ
  multiplier : ℚ
  days_analyzed : ℤ
  data_points : ℕ
  inflection_date : Option ℤ
  inflection_days_ago : Option ℤ
  supplier_correlation : Option String
  equipment_correlation : Option String
deriving DecidableEq

/-- `DegradationDetector.detect_quality_drift`, as a function of the
queried records. -/
def detectQualityDrift (material_code : String) (window_days now : ℤ)
    (rows : List WorkOrder) : Option QualityDriftEvent :=
  if rows.length < 5 then none
  else
    let data_points := scrapPoints rows
    if data_points.length < 5 then none
    else
      match calculateTrend (data_points.map (fun p => p.2.1)) with
      | none => none
      | some trend =>
        if 0 < trend.slope ∧ (0.3 : ℚ) < trend.slope_significance then
          let drift_pct := trend.recent_avg - trend.early_avg
          let inflection := findInflectionPoint now
            (data_points.map (fun p => p.1)) (data_points.map (fun p => p.2.1))
          let supplier_change := detectSupplierChangeHint
            (data_points.map (fun p => p.2.2.1)) inflection
          let equipment_change := detectEquipmentPatternHint
            (data_points.map (fun p => p.2.2.2))
          some { material_code
                 early_scrap_rate := roundTo 2 trend.early_avg
                 recent_scrap_rate := roundTo 2 trend.recent_avg
                 drift_pct := roundTo 2 drift_pct
                 multiplier := if 0 < trend.early_avg then
                     roundTo 2 (trend.recent_avg / trend.early_avg) else 0
                 days_analyzed := window_days
                 data_points := data_points.length
                 inflection_date := inflection.map (fun p => p.1)
                 inflection_days_ago := inflection.map (fun p => p.2)
                 supplier_correlation := supplier_change
                 equipment_correlation := equipment_change }
        else none

/-! ### C4 -/

/-- C4 (confirmed): each of the three detectors returns `None` whenever
its extracted series has fewer than 5 data points (in particular for
exactly 4 — and since at most one point is extracted per queried record,
this also covers fewer than 5 queried records), and when a detector does
emit a trend object, the computed `slope_significance` exceeds `0.3`.
The embedded detectors are total functions, so no error is raised; the
division in `degradation_pct` is safe because `slope_significance > 0.3`
forces `early_avg > 0`. -/
theorem c4_detector_gates (eq_id mat : String) (wd now : ℤ) (rows : List WorkOrder) :
    ((equipPoints rows).length < 5 →
        detectEquipmentDegradation eq_id wd rows = none)
    ∧ (∀ ev, detectEquipmentDegradation eq_id wd rows = some ev →
        ∃ t, calculateTrend ((equipPoints rows).map (fun p => p.2)) = some t
          ∧ (0.3 : ℚ) < t.slope_significance)
    ∧ ((costPoints rows).length < 5 → detectCostTrend mat wd now rows = none)
    ∧ (∀ ev, detectCostTrend mat wd now rows = some ev →
        ∃ t, calculateTrend ((costPoints rows).map (fun p => p.2.1)) = some t
          ∧ (0.3 : ℚ) < t.slope_significance)
    ∧ ((scrapPoints rows).length < 5 → detectQualityDrift mat wd now rows = none)
    ∧ (∀ ev, detectQualityDrift mat wd now rows = some ev →
        ∃ t, calculateTrend ((scrapPoints rows).map (fun p => p.2.1)) = some t
          ∧ (0.3 : ℚ) < t.slope_significance) := by
  refine ⟨?_, ?_, ?_, ?_, ?_, ?_⟩
  · intro h5
    unfold detectEquipmentDegradation
    by_cases h1 : rows.length < 5
    · rw [if_pos h1]
    · simp only [if_neg h1, if_pos h5]
  · intro ev hev
    unfold detectEquipmentDegradation at hev
    by_cases h1 : rows.length < 5
    · rw [if_pos h1] at hev
      exact absurd hev (by simp)
    · by_cases h2 : (equipPoints rows).length < 5
      · simp only [if_neg h1, if_pos h2] at hev
        exact absurd hev (by simp)
      · rcases ht : calculateTrend ((equipPoints rows).map (fun p => p.2))
            with _ | t
        · simp only [if_neg h1, if_neg h2, ht] at hev
          exact absurd hev (by simp)
        · by_cases hcond : 0 < t.slope ∧ (0.3 : ℚ) < t.slope_significance
          · exact ⟨t, ht, hcond.2⟩
          · simp only [if_neg h1, if_neg h2, ht, if_neg hcond] at hev
            exact absurd hev (by simp)
  · intro h5
    unfold detectCostTrend
    by_cases h1 : rows.length < 5
    · rw [if_pos h1]
    · simp only [if_neg h1, if_pos h5]
  · intro ev hev
    unfold detectCostTrend at hev
    by_cases h1 : rows.length < 5
    · rw [if_pos h1] at hev
      exact absurd hev (by simp)
    · by_cases h2 : (costPoints rows).length < 5
      · simp only [if_neg h1, if_pos h2] at hev
        exact absurd hev (by simp)
      · rcases ht : calculateTrend ((costPoints rows).map (fun p => p.2.1))
            with _ | t
        · simp only [if_neg h1, if_neg h2, ht] at hev
          exact absurd hev (by simp)
        · by_cases hcond : 0 < |t.slope| ∧ (0.3 : ℚ) < t.slope_significance
          · exact ⟨t, ht, hcond.2⟩
          · simp only [if_neg h1, if_neg h2, ht, if_neg hcond] at hev
            exact absurd hev (by simp)
  · intro h5
    unfold detectQualityDrift
    by_cases h1 : rows.length < 5
    · rw [if_pos h1]
    · simp only [if_neg h1, if_pos h5]
  · intro ev hev
    unfold detectQualityDrift at hev
    by_cases h1 : rows.length < 5
    · rw [if_pos h1] at hev
      exact absurd hev (by simp)
    · by_cases h2 : (scrapPoints rows).length < 5
      · simp only [if_neg h1, if_pos h2] at hev
        exact absurd hev (by simp)
      · rcases ht : calculateTrend ((scrapPoints rows).map (fun p => p.2.1))
            with _ | t
        · simp only [if_neg h1, if_neg h2, ht] at hev
          exact absurd hev (by simp)
        · by_cases hcond : 0 < t.slope ∧ (0.3 : ℚ) < t.slope_significance
          · exact ⟨t, ht, hcond.2⟩
          · simp only [if_neg h1, if_neg h2, ht, if_neg hcond] at hev
            exact absurd hev (by simp)

/-- Four records with one valid point each for every metric: all three
detectors must return `None` (the `< 5` gate). -/
def c4RowsFour : List WorkOrder :=
  [ { upload_day := 0, actual_labor_hours := some 10, actual_material_cost := some 5,
      material_code := some "M", units_produced := some 10, units_scrapped := some 1 },
    { upload_day := 1, actual_labor_hours := some 10, actual_material_cost := some 5,
      material_code := some "M", units_produced := some 10, units_scrapped := some 1 },
    { upload_day := 2, actual_labor_hours := some 10, actual_material_cost := some 5,
      material_code := some "M", units_produced := some 10, units_scrapped := some 1 },
    { upload_day := 3, actual_labor_hours := some 10, actual_material_cost := some 5,
      material_code := some "M", units_produced := some 10, units_scrapped := some 1 } ]

/-- Six records whose labor-hour series `[10,10,10,10,20,20]` yields a
significant worsening trend (`slope_significance = 1 > 0.3`). -/
def c4RowsDeg : List WorkOrder :=
  [ { upload_day := 0, actual_labor_hours := some 10 },
    { upload_day := 1, actual_labor_hours := some 10 },
    { upload_day := 2, actual_labor_hours := some 10 },
    { upload_day := 3, actual_labor_hours := some 10 },
    { upload_day := 4, actual_labor_hours := some 20 },
    { upload_day := 5, actual_labor_hours := some 20 } ]

theorem c4_detector_gates_witness :
    ((equipPoints c4RowsFour).length < 5 ∧ (costPoints c4RowsFour).length < 5
      ∧ (scrapPoints c4RowsFour).length < 5)
    ∧ detectEquipmentDegradation "E1" 30 c4RowsFour = none
    ∧ detectCostTrend "M" 30 0 c4RowsFour = none
    ∧ detectQualityDrift "M" 30 0 c4RowsFour = none
    ∧ (∃ t, calculateTrend ((equipPoints c4RowsDeg).map (fun p => p.2)) = some t
        ∧ (0.3 : ℚ) < t.slope_significance) :=
  ⟨⟨by decide, by decide, by decide⟩,
   (c4_detector_gates "E1" "M" 30 0 c4RowsFour).1 (by decide),
   (c4_detector_gates "E1" "M" 30 0 c4RowsFour).2.2.1 (by decide),
   (c4_detector_gates "E1" "M" 30 0 c4RowsFour).2.2.2.2.1 (by decide),
   (c4_detector_gates "E1" "M" 30 0 c4RowsDeg).2.1
     { equipment_id := "E1", degradation_pct := 100, early_avg := 10,
       recent_avg := 20, slope := 16667/10000, days_analyzed := 30,
       data_points := 6, days_to_threshold := none }
     (by decide)⟩

/-! ## Correlation analyzer (`analytics/correlation_analyzer.py`) -/

/-- Result of `CorrelationAnalyzer._detect_supplier_change_timing` (the
formatted `description` string and the constant `type` field are
omitted). -/
structure SupplierChangeEvent where
  from_supplier : String
  to_supplier : String
  date : ℤ
  days_ago : ℤ
  correlation_strength : String
deriving DecidableEq

/-- The `changes` loop of `_detect_supplier_change_timing`: walk the
records carrying `prev_supplier` (the previous record's raw
`supplier_id`, updated on every record, truthy or not) and record a
transition whenever the current and previous supplier are both truthy
and differ. -/
def supplierTransitionsGo : Option String → List WorkOrder → List (String × String × ℤ)
  | _, [] => []
  | prev, wo :: rest =>
    let cur := wo.supplier_id
    let here :=
      match cur, prev with
      | some c, some p =>
        if c ≠ "" ∧ p ≠ "" ∧ c ≠ p then [(p, c, wo.upload_day)] else []
      | _, _ => []
    here ++ supplierTransitionsGo cur rest

/-- The full `changes` list (`prev_supplier` starts as `None`). -/
def supplierTransitions (rows : List WorkOrder) : List (String × String × ℤ) :=
  supplierTransitionsGo none rows

/-- `CorrelationAnalyzer._detect_supplier_change_timing`, as a function
of the queried records.  `inflection_date` is only truthiness-tested by
the source (never parsed), so it is embedded as an `Option` of an
abstract date; `days_ago = now - change date`; the strength test is
`'high' if inflection_date and abs(days_ago - 7) < 5 else 'medium'`. -/
def detectSupplierChangeTiming (now : ℤ) (inflection_date : Option ℤ)
    (rows : List WorkOrder) : Option SupplierChangeEvent :=
  let suppliers := rows.filterMap (fun wo =>
    match wo.supplier_id with
    | some s => if s = "" then none else some s
    | none => none)
  if suppliers.dedup.length < 2 then none
  else
    match (supplierTransitions rows).getLast? with
    | none => none
    | some (p, c, d) =>
      let days_ago := now - d
      some { from_supplier := p
             to_supplier := c
             date := d
             days_ago := days_ago
             correlation_strength :=
               if inflection_date.isSome ∧ |days_ago - 7| < 5 then "high"
               else "medium" }

/-- Spec-side reformulation of the `changes` loop: a transition sits at
every adjacent pair of records whose suppliers are both truthy and
differ. -/
def adjacentTransitions (rows : List WorkOrder) : List (String × String × ℤ) :=
  (rows.zip rows.tail).filterMap (fun pr =>
    match pr.1.supplier_id, pr.2.supplier_id with
    | some p, some c =>
      if c ≠ "" ∧ p ≠ "" ∧ c ≠ p then some (p, c, pr.2.upload_day) else none
    | _, _ => none)

lemma supplierTransitionsGo_adjacent :
    ∀ (rest : List WorkOrder) (a : WorkOrder),
      supplierTransitionsGo a.supplier_id rest = adjacentTransitions (a :: rest)
  | [], a => rfl
  | b :: rest2, a => by
    have ih := supplierTransitionsGo_adjacent rest2 b
    show (let here := _; here ++ supplierTransitionsGo b.supplier_id rest2) = _
    rw [ih]
    show (match b.supplier_id, a.supplier_id with
      | some c, some p =>
        if c ≠ "" ∧ p ≠ "" ∧ c ≠ p then [(p, c, b.upload_day)] else []
      | _, _ => []) ++ adjacentTransitions (b :: rest2)
        = adjacentTransitions (a :: b :: rest2)
    show _ = ((a, b) :: (b :: rest2).zip rest2).filterMap _
    rw [List.filterMap_cons]
    rcases ha : a.supplier_id with _ | p
    · rcases hb : b.supplier_id with _ | c
      · rfl
      · rfl
    · rcases hb : b.supplier_id with _ | c
      · rfl
      · by_cases hcp : c ≠ "" ∧ p ≠ "" ∧ c ≠ p
        · simp only [if_pos hcp]
          rfl
        · simp only [if_neg hcp]
          rfl

lemma supplierTransitions_eq_adjacent (rows : List WorkOrder) :
    supplierTransitions rows = adjacentTransitions rows := by
  match rows with
  | [] => rfl
  | a :: rest =>
    show (match a.supplier_id, (none : Option String) with
      | some c, some p =>
        if c ≠ "" ∧ p ≠ "" ∧ c ≠ p then [(p, c, a.upload_day)] else []
      | _, _ => []) ++ supplierTransitionsGo a.supplier_id rest
        = adjacentTransitions (a :: rest)
    have hnil : (match a.supplier_id, (none : Option String) with
      | some c, some p =>
        if c ≠ "" ∧ p ≠ "" ∧ c ≠ p then [(p, c, a.upload_day)] else []
      | _, _ => ([] : List (String × String × ℤ))) = [] := by
      rcases a.supplier_id with _ | p
      · rfl
      · rfl
    rw [hnil, List.nil_append]
    exact supplierTransitionsGo_adjacent rest a

/-! ### C5 -/

/-- Five records for material "M": supplier A then B, all uploaded 30
days before "now", with an inflection date supplied and equal to the
transition date. -/
def c5Rows : List WorkOrder :=
  [ { upload_day := 0, supplier_id := some "A" },
    { upload_day := 0, supplier_id := some "B" },
    { upload_day := 0, supplier_id := some "B" },
    { upload_day := 0, supplier_id := some "B" },
    { upload_day := 0, supplier_id := some "B" } ]

/-- C5 counterexample: an inflection date is supplied (day 0) and the
supplier transition happens exactly on it — within 5 days of the
inflection date in anyone's reading — yet the code reports strength
`medium`, because its test is `abs(days_ago - 7) < 5`: it compares the
transition's distance from "now" against a fixed 7-day-ago window and
never reads the inflection date's value (here `days_ago = 30`,
`|30 - 7| = 23 ≥ 5`).  So "high iff the transition falls within 5 days
of the supplied inflection date" is false of the code. -/
theorem c5_counterexample :
    detectSupplierChangeTiming 30 (some 0) c5Rows
      = some { from_supplier := "A", to_supplier := "B", date := 0, days_ago := 30,
               correlation_strength := "medium" }
    ∧ (some (0 : ℤ)).isSome = true
    ∧ |(0 : ℤ) - (0 : ℤ)| ≤ 5
    ∧ "medium" ≠ "high" :=
  ⟨by decide, rfl, by decide, by decide⟩

/-- C5 (corrected): for a window with at least 2 distinct truthy
supplier ids *and* at least one adjacent pair of records with truthy,
differing suppliers, the detector reports the last such adjacent
transition (from- and to-supplier, date, and `days_ago = now − date`),
and `correlation_strength` is `high` iff an inflection date was supplied
**and** `|days_ago − 7| < 5` (the transition occurred 3–11 days before
"now" — a fixed heuristic window unrelated to the inflection date's
value); otherwise `medium`.  Note the first hypothesis alone is not
enough: with 2 distinct supplier ids separated by a null-supplier record
there is no adjacent transition and the detector returns `None`. -/
theorem c5_supplier_change_timing (now : ℤ) (inflection_date : Option ℤ)
    (rows : List WorkOrder)
    (h2 : 2 ≤ (rows.filterMap (fun wo =>
        match wo.supplier_id with
        | some s => if s = "" then none else some s
        | none => none)).dedup.length)
    (htr : adjacentTransitions rows ≠ []) :
    ∃ p c d, (adjacentTransitions rows).getLast? = some (p, c, d)
      ∧ detectSupplierChangeTiming now inflection_date rows
        = some { from_supplier := p, to_supplier := c, date := d,
                 days_ago := now - d,
                 correlation_strength :=
                   if inflection_date.isSome ∧ |now - d - 7| < 5 then "high"
                   else "medium" } := by
  rcases hlast : (adjacentTransitions rows).getLast? with _ | pcd
  · rw [List.getLast?_eq_none_iff] at hlast
    exact absurd hlast htr
  · obtain ⟨p, c, d⟩ := pcd
    refine ⟨p, c, d, rfl, ?_⟩
    have hnotlt : ¬ ((rows.filterMap (fun wo =>
        match wo.supplier_id with
        | some s => if s = "" then none else some s
        | none => none)).dedup.length < 2) := by omega
    unfold detectSupplierChangeTiming
    simp only [if_neg hnotlt, supplierTransitions_eq_adjacent, hlast]

/-- Two records with distinct suppliers three days apart. -/
def c5WitnessRows : List WorkOrder :=
  [ { upload_day := 0, supplier_id := some "A" },
    { upload_day := 3, supplier_id := some "B" } ]

theorem c5_supplier_change_timing_witness :
    (2 ≤ (c5WitnessRows.filterMap (fun wo =>
        match wo.supplier_id with
        | some s => if s = "" then none else some s
        | none => none)).dedup.length
      ∧ adjacentTransitions c5WitnessRows ≠ [])
    ∧ (∃ p c d, (adjacentTransitions c5WitnessRows).getLast? = some (p, c, d)
        ∧ detectSupplierChangeTiming 10 none c5WitnessRows
          = some { from_supplier := p, to_supplier := c, date := d,
                   days_ago := 10 - d,
                   correlation_strength :=
                     if (none : Option ℤ).isSome ∧ |10 - d - 7| < 5 then "high"
                     else "medium" }) :=
  ⟨⟨by decide, by decide⟩,
    c5_supplier_change_timing 10 none c5WitnessRows (by decide) (by decide)⟩

/-! ## Baseline tracker (`analytics/baseline_tracker.py`) -/

/-- Insertion-ordered grouping map, mirroring a Python `dict` of lists:
append to an existing key's list, or add a new key at the end. -/
def addToGroup (groups : List (String × List ℚ)) (key : String) (v : ℚ) :
    List (String × List ℚ) :=
  match groups with
  | [] => [(key, [v])]
  | (k2, vs) :: rest =>
    if k2 = key then (k2, vs ++ [v]) :: rest else (k2, vs) :: addToGroup rest key v

/-- The grouping loop shared by the four `_calculate_*_baselines`
helpers: extract a `(key, value)` pair from each record (or skip it) and
group values by key in insertion order. -/
def groupsBy (f : WorkOrder → Option (String × ℚ)) (rows : List WorkOrder) :
    List (String × List ℚ) :=
  rows.foldl (fun acc wo =>
    match f wo with
    | some (key, v) => addToGroup acc key v
    | none => acc) []

/-- Extraction of `_calculate_material_baselines`: truthy
`material_code` and truthy `actual_material_cost`. -/
def materialCostEntry (wo : WorkOrder) : Option (String × ℚ) :=
  match wo.material_code, wo.actual_material_cost with
  | some m, some c => if m ≠ "" ∧ c ≠ 0 then some (m, c) else none
  | _, _ => none

/-- Extraction of `_calculate_labor_baselines`: the operation type
defaults to `"general"` when missing, empty, or whitespace-only; the
hours must be truthy. -/
def laborHoursEntry (wo : WorkOrder) : Option (String × ℚ) :=
  let s := match wo.operation_type with
    | some s => if s = "" then "general" else s
    | none => "general"
  let op := if s.trim = "" then "general" else s
  match wo.actual_labor_hours with
  | some h => if h ≠ 0 then some (op, h) else none
  | none => none

/-- Extraction of `_calculate_scrap_baselines`: truthy `material_code`
and a truthy, positive `units_produced or actual_quantity`; the value is
the scrap rate in percent (`units_scrapped` defaults to 0). -/
def scrapRateEntry (wo : WorkOrder) : Option (String × ℚ) :=
  match wo.material_code with
  | some m =>
    if m ≠ "" then
      match orNum wo.units_produced wo.actual_quantity with
      | some q =>
        if 0 < q then some (m, (wo.units_scrapped.getD 0) / q * 100) else none
      | none => none
    else none
  | none => none

/-- Extraction of `_calculate_equipment_baselines`: truthy
`equipment_id or machine_id` and truthy hours. -/
def equipmentEntry (wo : WorkOrder) : Option (String × ℚ) :=
  match orStr wo.equipment_id wo.machine_id, wo.actual_labor_hours with
  | some e, some h => if e ≠ "" ∧ h ≠ 0 then some (e, h) else none
  | _, _ => none

/-- The population variance underlying `BaselineTracker._calculate_std`
(which returns `0.0` for fewer than 2 values, and otherwise the square
root of this quantity). -/
def calcVariance (values : List ℚ) : ℚ :=
  if values.length < 2 then 0
  else
    let mean := values.sum / (values.length : ℚ)
    (values.map (fun x => (x - mean) * (x - mean))).sum / (values.length : ℚ)

/-- One row of the `facility_baselines` table as written by
`_upsert_baseline`.  `rolling_var` stores the variance whose square root
the source stores (see `BaselineRow.rolling_std`); keeping the rational
variance makes the row computable. -/
structure BaselineRow where
  facility_id : ℤ
  metric_type : String
  identifier : String
  rolling_avg : ℚ
  rolling_var : ℚ
  sample_count : ℕ
deriving DecidableEq

/-- `round(x, 2)` on a real value.  (Mathlib's `round` is
round-half-up where Python uses round-half-to-even; the two differ only
at exact ties, which cannot affect sign.) -/
noncomputable def roundR2 (x : ℝ) : ℝ := ((round (x * 100) : ℤ) : ℝ) / 100

/-- The `rolling_std` the source stores for a row:
`round(sqrt(variance), 2)` (with `sqrt 0 = 0` covering the `< 2`-sample
case where `_calculate_std` returns `0.0` directly). -/
noncomputable def BaselineRow.rolling_std (r : BaselineRow) : ℝ :=
  roundR2 (Real.sqrt r.rolling_var)

/-- The per-metric upsert loop shared by the four `_calculate_*`
helpers: for each nonempty group, compute mean, std and count and call
`_upsert_baseline` — which **catches its own exceptions**, so a failed
write (modelled by `writeOk metric_type key = false`) is skipped while
the loop continues and the returned count still includes the group.
Returns (rows actually written, count returned to the caller). -/
def rowsFor (facility_id : ℤ) (metric_type : String)
    (writeOk : String → String → Bool) (groups : List (String × List ℚ)) :
    List BaselineRow × ℕ :=
  groups.foldl (fun acc g =>
    if g.2.length = 0 then acc
    else
      let written :=
        if writeOk metric_type g.1 then
          acc.1 ++ [{ facility_id := facility_id
                      metric_type := metric_type
                      identifier := g.1
                      rolling_avg := roundTo 2 (g.2.sum / (g.2.length : ℚ))
                      rolling_var := calcVariance g.2
                      sample_count := g.2.length }]
        else acc.1
      (written, acc.2 + 1)) ([], 0)

/-- `BaselineTracker.update_baselines`, as a function of the fetched
records.  `readResult = none` models the fetch (or any of the pure
helpers) raising: the top-level `except` catches it and returns the
empty map with nothing written.  `writeOk` tells which individual
upserts raise (those are caught *inside* `_upsert_baseline`).  Returns
(the dictionary returned to the caller, the rows actually written). -/
def updateBaselines (facility_id : ℤ) (readResult : Option (List WorkOrder))
    (writeOk : String → String → Bool) :
    List (String × ℕ) × List BaselineRow :=
  match readResult with
  | none => ([], [])
  | some work_orders =>
    if work_orders.length = 0 then ([], [])
    else
      let m := rowsFor facility_id "material_cost" writeOk
        (groupsBy materialCostEntry work_orders)
      let l := rowsFor facility_id "labor_hours" writeOk
        (groupsBy laborHoursEntry work_orders)
      let s := rowsFor facility_id "scrap_rate" writeOk
        (groupsBy scrapRateEntry work_orders)
      let e := rowsFor facility_id "equipment_cycle_time" writeOk
        (groupsBy equipmentEntry work_orders)
      ([("material_costs", m.2), ("labor_hours", l.2), ("scrap_rates", s.2),
        ("equipment_performance", e.2)],
       m.1 ++ l.1 ++ s.1 ++ e.1)

/-- The extractor used for a given `metric_type` string. -/
def extractFor (metric_type : String) : WorkOrder → Option (String × ℚ) :=
  if metric_type = "material_cost" then materialCostEntry
  else if metric_type = "labor_hours" then laborHoursEntry
  else if metric_type = "scrap_rate" then scrapRateEntry
  else if metric_type = "equipment_cycle_time" then equipmentEntry
  else fun _ => none

/-- Spec-side: the values that contribute to the `(metric_type,
identifier)` group, in record order. -/
def contributingValues (rows : List WorkOrder) (metric_type identifier : String) :
    List ℚ :=
  (((rows.filterMap (extractFor metric_type)).filter
      (fun pr => pr.1 = identifier)).map (fun pr => pr.2))


/-! ### Grouping lemmas -/

/-- Lookup in an insertion-ordered grouping map. -/
def lookupGroup (k : String) : List (String × List ℚ) → Option (List ℚ)
  | [] => none
  | (k2, vs) :: rest => if k2 = k then some vs else lookupGroup k rest

lemma lookupGroup_cons (k2 : String) (vs : List ℚ) (rest : List (String × List ℚ))
    (k : String) :
    lookupGroup k ((k2, vs) :: rest)
      = if k2 = k then some vs else lookupGroup k rest := rfl

lemma addToGroup_cons (k2 : String) (vs : List ℚ) (rest : List (String × List ℚ))
    (key : String) (v : ℚ) :
    addToGroup ((k2, vs) :: rest) key v
      = if k2 = key then (k2, vs ++ [v]) :: rest
        else (k2, vs) :: addToGroup rest key v := rfl

lemma lookupGroup_addToGroup (groups : List (String × List ℚ)) (k key : String)
    (v : ℚ) :
    lookupGroup k (addToGroup groups key v)
      = if key = k then some ((lookupGroup k groups).getD [] ++ [v])
        else lookupGroup k groups := by
  induction groups with
  | nil =>
    show lookupGroup k [(key, [v])] = _
    rw [lookupGroup_cons]
    by_cases h : key = k
    · rw [if_pos h, if_pos h]
      rfl
    · rw [if_neg h, if_neg h]
  | cons g rest ih =>
    obtain ⟨k2, vs⟩ := g
    rw [addToGroup_cons]
    by_cases h1 : k2 = key
    · rw [if_pos h1, lookupGroup_cons, lookupGroup_cons]
      by_cases h2 : k2 = k
      · rw [if_pos h2, if_pos h2, if_pos (h1 ▸ h2 : key = k)]
        rfl
      · rw [if_neg h2, if_neg h2, if_neg (fun hh : key = k => h2 (h1.trans hh))]
    · rw [if_neg h1, lookupGroup_cons, lookupGroup_cons]
      by_cases h2 : k2 = k
      · rw [if_pos h2, if_pos h2,
          if_neg (fun hh : key = k => h1 (h2.trans hh.symm))]
      · rw [if_neg h2, if_neg h2, ih]

lemma lookupGroup_groupsBy_go (f : WorkOrder → Option (String × ℚ)) (k : String) :
    ∀ (rows : List WorkOrder) (acc : List (String × List ℚ)),
    lookupGroup k (rows.foldl (fun acc wo =>
        match f wo with
        | some (key, v) => addToGroup acc key v
        | none => acc) acc)
      = (if (((rows.filterMap f).filter (fun pr => pr.1 = k)).map
              (fun pr => pr.2)) = []
         then lookupGroup k acc
         else some ((lookupGroup k acc).getD []
           ++ (((rows.filterMap f).filter (fun pr => pr.1 = k)).map
                (fun pr => pr.2)))) := by
  intro rows
  induction rows with
  | nil =>
    intro acc
    simp [List.filterMap_nil]
  | cons wo rest ih =>
    intro acc
    rw [List.foldl_cons, List.filterMap_cons]
    rcases hf : f wo with _ | kv
    · simp only [hf]
      exact ih acc
    · obtain ⟨key, v⟩ := kv
      simp only [hf]
      by_cases hkk : key = k
      · subst hkk
        have hla : lookupGroup key (addToGroup acc key v)
            = some ((lookupGroup key acc).getD [] ++ [v]) := by
          rw [lookupGroup_addToGroup, if_pos rfl]
        have hfc : (((key, v) : String × ℚ) :: rest.filterMap f).filter
            (fun pr => pr.1 = key)
              = ((key, v) : String × ℚ) :: (rest.filterMap f).filter
                  (fun pr => pr.1 = key) := by
          rw [List.filter_cons, if_pos (by simp)]
        rw [ih (addToGroup acc key v), hla, hfc, List.map_cons]
        by_cases hcr : (((rest.filterMap f).filter (fun pr => pr.1 = key)).map
            (fun pr => pr.2)) = []
        · rw [if_pos hcr, hcr, if_neg (by simp)]
        · rw [if_neg hcr, if_neg (by simp), Option.getD_some, List.append_assoc]
          rfl
      · have hla : lookupGroup k (addToGroup acc key v) = lookupGroup k acc := by
          rw [lookupGroup_addToGroup, if_neg hkk]
        have hfc : (((key, v) : String × ℚ) :: rest.filterMap f).filter
            (fun pr => pr.1 = k)
              = (rest.filterMap f).filter (fun pr => pr.1 = k) := by
          rw [List.filter_cons, if_neg (by simpa using hkk)]
        rw [ih (addToGroup acc key v), hla, hfc]

lemma lookupGroup_groupsBy (f : WorkOrder → Option (String × ℚ)) (k : String)
    (rows : List WorkOrder) :
    lookupGroup k (groupsBy f rows)
      = (if (((rows.filterMap f).filter (fun pr => pr.1 = k)).map
              (fun pr => pr.2)) = []
         then none
         else some (((rows.filterMap f).filter (fun pr => pr.1 = k)).map
              (fun pr => pr.2))) := by
  unfold groupsBy
  rw [lookupGroup_groupsBy_go f k rows []]
  by_cases h : (((rows.filterMap f).filter (fun pr => pr.1 = k)).map
      (fun pr => pr.2)) = []
  · rw [if_pos h, if_pos h]
    rfl
  · rw [if_neg h, if_neg h]
    rfl

lemma addToGroup_fst (groups : List (String × List ℚ)) (key : String) (v : ℚ) :
    (addToGroup groups key v).map Prod.fst
      = if key ∈ groups.map Prod.fst then groups.map Prod.fst
        else groups.map Prod.fst ++ [key] := by
  induction groups with
  | nil =>
    simp [addToGroup]
  | cons g rest ih =>
    obtain ⟨k2, vs⟩ := g
    rw [addToGroup_cons]
    by_cases h1 : k2 = key
    · subst h1
      simp [List.mem_cons]
    · rw [if_neg h1]
      simp only [List.map_cons, List.mem_cons]
      rw [ih]
      by_cases h2 : key ∈ rest.map Prod.fst
      · rw [if_pos h2, if_pos (Or.inr h2)]
      · rw [if_neg h2, if_neg (by
          rintro (hh | hh)
          · exact h1 hh.symm
          · exact h2 hh)]
        rfl

lemma groupsBy_keys_nodup (f : WorkOrder → Option (String × ℚ)) :
    ∀ (rows : List WorkOrder) (acc : List (String × List ℚ)),
    (acc.map Prod.fst).Nodup →
    ((rows.foldl (fun acc wo =>
        match f wo with
        | some (key, v) => addToGroup acc key v
        | none => acc) acc).map Prod.fst).Nodup := by
  intro rows
  induction rows with
  | nil => exact fun acc h => h
  | cons wo rest ih =>
    intro acc hacc
    rw [List.foldl_cons]
    rcases hf : f wo with _ | kv
    · simp only [hf]
      exact ih acc hacc
    · obtain ⟨key, v⟩ := kv
      simp only [hf]
      apply ih
      rw [addToGroup_fst]
      by_cases h2 : key ∈ acc.map Prod.fst
      · rw [if_pos h2]
        exact hacc
      · rw [if_neg h2]
        simp only [List.nodup_append, List.nodup_cons, List.nodup_nil]
        refine ⟨hacc, ⟨by simp, trivial⟩, ?_⟩
        intro a ha hb
        simp only [List.mem_singleton] at hb
        exact h2 (hb ▸ ha)

lemma lookupGroup_of_mem :
    ∀ (groups : List (String × List ℚ)) (k : String) (vs : List ℚ),
    (k, vs) ∈ groups → ((groups.map Prod.fst).Nodup) →
    lookupGroup k groups = some vs := by
  intro groups
  induction groups with
  | nil =>
    intro k vs hmem
    exact absurd hmem (by simp)
  | cons g rest ih =>
    intro k vs hmem hnodup
    obtain ⟨k2, vs2⟩ := g
    rw [lookupGroup_cons]
    rcases List.mem_cons.mp hmem with heq | hrest
    · obtain ⟨hk, hv⟩ := Prod.mk.injEq .. ▸ heq
      rw [if_pos (by rw [Prod.mk.injEq] at heq; exact heq.1.symm)]
      rw [Prod.mk.injEq] at heq
      rw [heq.2]
    · by_cases h2 : k2 = k
      · exfalso
        subst h2
        simp only [List.map_cons, List.nodup_cons] at hnodup
        exact hnodup.1 (by
          have : k2 ∈ (rest.map Prod.fst) := by
            exact List.mem_map_of_mem Prod.fst hrest
          simpa using this)
      · rw [if_neg h2]
        simp only [List.map_cons, List.nodup_cons] at hnodup
        exact ih k vs hrest hnodup.2

/-- Every group produced by `groupsBy` holds exactly the values the
extractor contributes for its key, in order, and is nonempty. -/
lemma mem_groupsBy (f : WorkOrder → Option (String × ℚ)) (rows : List WorkOrder)
    (k : String) (vs : List ℚ) (h : (k, vs) ∈ groupsBy f rows) :
    vs = ((rows.filterMap f).filter (fun pr => pr.1 = k)).map (fun pr => pr.2)
      ∧ vs ≠ [] := by
  have hnodup : ((groupsBy f rows).map Prod.fst).Nodup :=
    groupsBy_keys_nodup f rows [] (by simp)
  have hlook := lookupGroup_of_mem (groupsBy f rows) k vs h hnodup
  rw [lookupGroup_groupsBy] at hlook
  by_cases hc : (((rows.filterMap f).filter (fun pr => pr.1 = k)).map
      (fun pr => pr.2)) = []
  · rw [if_pos hc] at hlook
    exact absurd hlook (by simp)
  · rw [if_neg hc] at hlook
    have := Option.some_injective _ hlook
    exact ⟨this.symm, fun hh => hc (this.trans hh)⟩

lemma rowsFor_go_mem (fid : ℤ) (mt : String) (wok : String → String → Bool) :
    ∀ (groups : List (String × List ℚ)) (acc : List BaselineRow × ℕ)
      (row : BaselineRow),
    row ∈ (groups.foldl (fun acc g =>
      if g.2.length = 0 then acc
      else
        ((if wok mt g.1 then
            acc.1 ++ [{ facility_id := fid
                        metric_type := mt
                        identifier := g.1
                        rolling_avg := roundTo 2 (g.2.sum / (g.2.length : ℚ))
                        rolling_var := calcVariance g.2
                        sample_count := g.2.length }]
          else acc.1), acc.2 + 1)) acc).1 →
    row ∈ acc.1 ∨ ∃ k vs, (k, vs) ∈ groups ∧ vs ≠ [] ∧ wok mt k = true
      ∧ row = { facility_id := fid, metric_type := mt, identifier := k,
                rolling_avg := roundTo 2 (vs.sum / (vs.length : ℚ)),
                rolling_var := calcVariance vs, sample_count := vs.length } := by
  intro groups
  induction groups with
  | nil =>
    intro acc row h
    exact Or.inl h
  | cons g rest ih =>
    intro acc row h
    rw [List.foldl_cons] at h
    rcases ih _ row h with hacc | ⟨k, vs, hmem, hne, hwok, hrow⟩
    · by_cases h0 : g.2.length = 0
      · rw [if_pos h0] at hacc
        exact Or.inl hacc
      · rw [if_neg h0] at hacc
        by_cases hw : wok mt g.1
        · rw [if_pos hw] at hacc
          rcases List.mem_append.mp hacc with hl | hr
          · exact Or.inl hl
          · refine Or.inr ⟨g.1, g.2, ?_, fun hh => h0 (by rw [hh]; rfl), hw,
              List.mem_singleton.mp hr⟩
            rw [Prod.mk.eta]
            exact List.mem_cons_self _ _
        · rw [if_neg hw] at hacc
          exact Or.inl hacc
    · exact Or.inr ⟨k, vs, List.mem_cons_of_mem g hmem, hne, hwok, hrow⟩

lemma rowsFor_mem (fid : ℤ) (mt : String) (wok : String → String → Bool)
    (groups : List (String × List ℚ)) (row : BaselineRow)
    (h : row ∈ (rowsFor fid mt wok groups).1) :
    ∃ k vs, (k, vs) ∈ groups ∧ vs ≠ [] ∧ wok mt k = true
      ∧ row = { facility_id := fid, metric_type := mt, identifier := k,
                rolling_avg := roundTo 2 (vs.sum / (vs.length : ℚ)),
                rolling_var := calcVariance vs, sample_count := vs.length } := by
  rcases rowsFor_go_mem fid mt wok groups ([], 0) row h with habs | hgood
  · exact absurd habs (by simp)
  · exact hgood

/-- Decomposition of the rows written by `updateBaselines`: every
written row comes from one of the four metric groupings, with a
successful write, and carries that group's statistics. -/
lemma updateBaselines_rows_mem (fid : ℤ) (wok : String → String → Bool)
    (wos : List WorkOrder) (row : BaselineRow)
    (h : row ∈ (updateBaselines fid (some wos) wok).2) :
    ∃ mt f, ((mt = "material_cost" ∧ f = materialCostEntry)
        ∨ (mt = "labor_hours" ∧ f = laborHoursEntry)
        ∨ (mt = "scrap_rate" ∧ f = scrapRateEntry)
        ∨ (mt = "equipment_cycle_time" ∧ f = equipmentEntry))
      ∧ ∃ k vs, (k, vs) ∈ groupsBy f wos ∧ vs ≠ [] ∧ wok mt k = true
        ∧ row = { facility_id := fid, metric_type := mt, identifier := k,
                  rolling_avg := roundTo 2 (vs.sum / (vs.length : ℚ)),
                  rolling_var := calcVariance vs, sample_count := vs.length } := by
  unfold updateBaselines at h
  by_cases h0 : wos.length = 0
  · simp only [if_pos h0] at h
    exact absurd h (by simp)
  · simp only [if_neg h0] at h
    rcases List.mem_append.mp h with h1 | h1
    · rcases List.mem_append.mp h1 with h2 | h2
      · rcases List.mem_append.mp h2 with h3 | h3
        · exact ⟨"material_cost", materialCostEntry, Or.inl ⟨rfl, rfl⟩,
            rowsFor_mem _ _ _ _ _ h3⟩
        · exact ⟨"labor_hours", laborHoursEntry, Or.inr (Or.inl ⟨rfl, rfl⟩),
            rowsFor_mem _ _ _ _ _ h3⟩
      · exact ⟨"scrap_rate", scrapRateEntry, Or.inr (Or.inr (Or.inl ⟨rfl, rfl⟩)),
          rowsFor_mem _ _ _ _ _ h2⟩
    · exact ⟨"equipment_cycle_time", equipmentEntry,
        Or.inr (Or.inr (Or.inr ⟨rfl, rfl⟩)), rowsFor_mem _ _ _ _ _ h1⟩

/-! ### C6 -/

/-- Two material records whose groups are "M1" and "M2". -/
def c6Rows : List WorkOrder :=
  [ { material_code := some "M1", actual_material_cost := some 10 },
    { material_code := some "M2", actual_material_cost := some 20 } ]

/-- Write oracle under which the upsert for "M2" raises. -/
def c6WriteOk : String → String → Bool := fun _ ident => ident == "M1"

/-- C6 counterexample: with the "M2" upsert raising (a write error),
`update_baselines` does **not** abandon the run and return the empty
map: `_upsert_baseline` catches its own exception, so the run continues,
only the "M1" row is actually written (a partially applied update), and
the returned map still reports `material_costs = 2` as success. -/
theorem c6_counterexample :
    (updateBaselines 1 (some c6Rows) c6WriteOk).1
        = [("material_costs", 2), ("labor_hours", 0), ("scrap_rates", 0),
           ("equipment_performance", 0)]
    ∧ (updateBaselines 1 (some c6Rows) c6WriteOk).1 ≠ []
    ∧ ((updateBaselines 1 (some c6Rows) c6WriteOk).2).map BaselineRow.identifier
        = ["M1"]
    ∧ c6WriteOk "material_cost" "M2" = false :=
  ⟨by decide, by decide, by decide, by decide⟩

/-- C6 (corrected): a **read** error (the fetch raising, caught by the
top-level `except`) abandons the whole update — the empty map is
returned and nothing is written; but a **write** error is caught inside
`_upsert_baseline` and only skips that row: every row actually written
passed its write, while the run continues and the returned counts still
include failed groups (see `c6_counterexample`). -/
theorem c6_error_semantics (fid : ℤ) (wok : String → String → Bool) :
    updateBaselines fid none wok = ([], [])
    ∧ ∀ (wos : List WorkOrder) (row : BaselineRow),
        row ∈ (updateBaselines fid (some wos) wok).2 →
        wok row.metric_type row.identifier = true := by
  refine ⟨rfl, ?_⟩
  intro wos row h
  rcases updateBaselines_rows_mem fid wok wos row h with
    ⟨mt, f, _, k, vs, _, _, hwok, hrow⟩
  rw [hrow]
  exact hwok

/-- The row written for group "M1" of `c6Rows` (one sample, so the
variance underlying the stored std is 0). -/
def c7WitnessRow : BaselineRow :=
  { facility_id := 1, metric_type := "material_cost", identifier := "M1",
    rolling_avg := 10, rolling_var := 0, sample_count := 1 }

theorem c6_error_semantics_witness :
    updateBaselines 1 none c6WriteOk = ([], [])
    ∧ c7WitnessRow ∈ (updateBaselines 1 (some c6Rows) c6WriteOk).2
    ∧ c6WriteOk "material_cost" "M1" = true :=
  ⟨(c6_error_semantics 1 c6WriteOk).1, by decide,
    (c6_error_semantics 1 c6WriteOk).2 c6Rows c7WitnessRow (by decide)⟩

/-! ### C7 -/

lemma calcVariance_nonneg (values : List ℚ) : 0 ≤ calcVariance values := by
  unfold calcVariance
  by_cases h : values.length < 2
  · rw [if_pos h]
  · rw [if_neg h]
    apply div_nonneg
    · apply List.sum_nonneg
      intro x hx
      rcases List.mem_map.mp hx with ⟨y, _, hy⟩
      rw [← hy]
      exact mul_self_nonneg _
    · exact Nat.cast_nonneg _

lemma roundR2_nonneg (x : ℝ) (hx : 0 ≤ x) : 0 ≤ roundR2 x := by
  unfold roundR2
  apply div_nonneg _ (by norm_num)
  have h1 : (0 : ℤ) ≤ round (x * 100) := by
    rw [round_eq]
    rw [show ((0 : ℤ) ≤ ⌊x * 100 + 1 / 2⌋ ↔ (0 : ℝ) ≤ x * 100 + 1 / 2) from
      Int.floor_nonneg]
    nlinarith
  exact_mod_cast h1

lemma extractFor_material : extractFor "material_cost" = materialCostEntry := by
  unfold extractFor
  rw [if_pos rfl]

lemma extractFor_labor : extractFor "labor_hours" = laborHoursEntry := by
  unfold extractFor
  rw [if_neg (by decide), if_pos rfl]

lemma extractFor_scrap : extractFor "scrap_rate" = scrapRateEntry := by
  unfold extractFor
  rw [if_neg (by decide), if_neg (by decide), if_pos rfl]

lemma extractFor_equipment :
    extractFor "equipment_cycle_time" = equipmentEntry := by
  unfold extractFor
  rw [if_neg (by decide), if_neg (by decide), if_neg (by decide), if_pos rfl]

/-- C7 (confirmed): every `MetricBaseline` row written by
`update_baselines` has `sample_count` equal to the number of (truthy,
hence non-null) values that contributed to its `(metric_type,
identifier)` group, `sample_count ≥ 1` (empty groups are never
written), a nonnegative stored variance, and `rolling_std =
round(sqrt(variance), 2) ≥ 0`. -/
theorem c7_baseline_row_invariants (fid : ℤ) (wok : String → String → Bool)
    (wos : List WorkOrder) (row : BaselineRow)
    (h : row ∈ (updateBaselines fid (some wos) wok).2) :
    1 ≤ row.sample_count
    ∧ row.sample_count
        = (contributingValues wos row.metric_type row.identifier).length
    ∧ 0 ≤ row.rolling_var
    ∧ 0 ≤ row.rolling_std := by
  rcases updateBaselines_rows_mem fid wok wos row h with
    ⟨mt, f, hcase, k, vs, hmem, hne, hwok, hrow⟩
  have hf : extractFor mt = f := by
    rcases hcase with ⟨h1, h2⟩ | ⟨h1, h2⟩ | ⟨h1, h2⟩ | ⟨h1, h2⟩ <;> subst h1 <;> subst h2
    · exact extractFor_material
    · exact extractFor_labor
    · exact extractFor_scrap
    · exact extractFor_equipment
  have hvs := mem_groupsBy f wos k vs hmem
  refine ⟨?_, ?_, ?_, ?_⟩
  · rw [hrow]
    show 1 ≤ vs.length
    have := List.length_pos.mpr hvs.2
    omega
  · rw [hrow]
    show vs.length = (contributingValues wos mt k).length
    unfold contributingValues
    rw [hf, ← hvs.1]
  · rw [hrow]
    exact calcVariance_nonneg vs
  · rw [hrow]
    exact roundR2_nonneg _ (Real.sqrt_nonneg _)

theorem c7_baseline_row_invariants_witness :
    c7WitnessRow ∈ (updateBaselines 1 (some c6Rows) c6WriteOk).2
    ∧ (1 ≤ c7WitnessRow.sample_count
      ∧ c7WitnessRow.sample_count
          = (contributingValues c6Rows "material_cost" "M1").length
      ∧ (0 : ℚ) ≤ c7WitnessRow.rolling_var
      ∧ (0 : ℝ) ≤ c7WitnessRow.rolling_std) :=
  ⟨by decide, c7_baseline_row_invariants 1 c6WriteOk c6Rows c7WitnessRow (by decide)⟩

/-! ## Orchestrator investigation grouping
(`orchestrators/auto_analysis_orchestrator.py`) -/

/-- An investigation summary as assembled by
`AutoAnalysisOrchestrator._create_investigations` (the wall-clock `id`,
the constant `type` / `title` strings, the `connected_insights` id
strings and the `priority` field — which compares
`str(i.priority_level)` against `'urgent'` — are omitted as
display-only). -/
structure Investigation where
  total_impact : ℚ
  trend_status : String
  insight_count : ℕ
  materials_affected : List String
deriving DecidableEq

/-- The filter of grouping rule 1: `pattern`-type insights whose data
`type` is `material` or `supplier`.  (The source also checks the
identifier against `processed_ids`, which is empty at that point, so
the check is vacuous.) -/
def isMaterialPattern (i : ScoredInsight) : Bool :=
  i.insight_type == "pattern"
    && (i.insight_data.data_type == some "material"
        || i.insight_data.data_type == some "supplier")

/-- `AutoAnalysisOrchestrator._aggregate_trends`:
`ACCELERATING` if any member's `data['trend']['status']` (default
`STABLE`) is `ACCELERATING`, else `DECELERATING` if any, else `STABLE`. -/
def aggregateTrends (insights : List ScoredInsight) : String :=
  let statuses := insights.map (fun i => i.insight_data.trend_status.getD "STABLE")
  if "ACCELERATING" ∈ statuses then "ACCELERATING"
  else if "DECELERATING" ∈ statuses then "DECELERATING"
  else "STABLE"

/-- `AutoAnalysisOrchestrator._create_investigations`: one grouping
rule — at least 2 material/supplier pattern insights merge into exactly
one investigation. -/
def createInvestigations (insights : List ScoredInsight) : List Investigation :=
  let material_patterns := insights.filter isMaterialPattern
  if 2 ≤ material_patterns.length then
    [ { total_impact := (material_patterns.map ScoredInsight.financial_impact).sum
        trend_status := aggregateTrends material_patterns
        insight_count := material_patterns.length
        materials_affected := material_patterns.map
          (fun i => i.insight_data.identifier.getD "Unknown") } ]
  else []

/-- Step 5 of `AutoAnalysisOrchestrator.analyze`: investigations are
created from `prioritized['urgent'] + prioritized['notable']` **only**
(`all_insights` excludes the background tier). -/
def analysisInvestigations (xs : List RawInsight) : List Investigation :=
  createInvestigations
    ((prioritizeInsights xs).urgent ++ (prioritizeInsights xs).notable)

/-! ### C9 -/

/-- The urgent-plus-notable pattern insights the grouping step actually
considers. -/
def consideredPatterns (xs : List RawInsight) : List ScoredInsight :=
  ((prioritizeInsights xs).urgent ++ (prioritizeInsights xs).notable).filter
    isMaterialPattern

/-- A low-scoring material pattern insight (no financial impact, zero
affected orders). -/
def c9Pattern (ident : String) : RawInsight :=
  { source_analyzer := "cost_analyzer", insight_type := "pattern",
    order_count := some 0, data_type := some "material",
    identifier := some ident }

/-- A high-scoring cost prediction (priority score 98). -/
def c9Prediction : RawInsight :=
  { source_analyzer := "cost_analyzer", insight_type := "prediction",
    financial_impact := 100000, risk_level := some "critical",
    confidence := some (9/10) }

/-- 15 high-scoring predictions followed by two low-scoring material
patterns: the patterns rank 16th and 17th, i.e. in the background
tier. -/
def c9Xs : List RawInsight :=
  List.replicate 15 c9Prediction ++ [c9Pattern "MAT-A", c9Pattern "MAT-B"]

/-- C9 counterexample: this run's scored insights contain 2
pattern-type insights with material identifiers, yet no Investigation
is created, because `_create_investigations` only receives
`prioritized['urgent'] + prioritized['notable']` and both patterns fall
into the background tier. -/
theorem c9_counterexample :
    analysisInvestigations c9Xs = []
    ∧ 2 ≤ ((c9Xs.map scoreInsight).filter isMaterialPattern).length :=
  ⟨by decide, by decide⟩

/-- C9 (corrected): the grouping step considers only the urgent and
notable tiers.  Whenever **those** contain at least 2 pattern-type
insights with material or supplier type, exactly one Investigation is
created (never one per pattern; and since this is the only grouping
rule, each insight contributes to at most one Investigation per run);
its `total_impact` is the sum of the member insights' financial
impacts, its member count is the number of such patterns, and its
aggregated trend status is `ACCELERATING` iff some member's trend is
accelerating, else `DECELERATING` iff some member's is decelerating,
else `STABLE`. -/
theorem c9_investigation_grouping (xs : List RawInsight)
    (h2 : 2 ≤ (consideredPatterns xs).length) :
    ∃ inv, analysisInvestigations xs = [inv]
      ∧ inv.total_impact
          = ((consideredPatterns xs).map ScoredInsight.financial_impact).sum
      ∧ inv.insight_count = (consideredPatterns xs).length
      ∧ (inv.trend_status = "ACCELERATING" ↔
          ∃ i ∈ consideredPatterns xs,
            i.insight_data.trend_status.getD "STABLE" = "ACCELERATING")
      ∧ (inv.trend_status = "DECELERATING" ↔
          (¬ (∃ i ∈ consideredPatterns xs,
              i.insight_data.trend_status.getD "STABLE" = "ACCELERATING")
            ∧ ∃ i ∈ consideredPatterns xs,
              i.insight_data.trend_status.getD "STABLE" = "DECELERATING"))
      ∧ (inv.trend_status = "STABLE" ↔
          (¬ (∃ i ∈ consideredPatterns xs,
              i.insight_data.trend_status.getD "STABLE" = "ACCELERATING")
            ∧ ¬ (∃ i ∈ consideredPatterns xs,
              i.insight_data.trend_status.getD "STABLE" = "DECELERATING"))) := by
  have he : analysisInvestigations xs
      = if 2 ≤ (consideredPatterns xs).length then
          [ { total_impact :=
                ((consideredPatterns xs).map ScoredInsight.financial_impact).sum
              trend_status := aggregateTrends (consideredPatterns xs)
              insight_count := (consideredPatterns xs).length
              materials_affected := (consideredPatterns xs).map
                (fun i => i.insight_data.identifier.getD "Unknown") } ]
        else [] := rfl
  rw [if_pos h2] at he
  have hmem : ∀ s : String,
      s ∈ (consideredPatterns xs).map
          (fun i => i.insight_data.trend_status.getD "STABLE")
        ↔ ∃ i ∈ consideredPatterns xs,
            i.insight_data.trend_status.getD "STABLE" = s := by
    intro s
    rw [List.mem_map]
  have hAgg : aggregateTrends (consideredPatterns xs)
      = if "ACCELERATING" ∈ (consideredPatterns xs).map
            (fun i => i.insight_data.trend_status.getD "STABLE")
          then "ACCELERATING"
        else if "DECELERATING" ∈ (consideredPatterns xs).map
            (fun i => i.insight_data.trend_status.getD "STABLE")
          then "DECELERATING"
        else "STABLE" := rfl
  refine ⟨_, he, rfl, rfl, ?_, ?_, ?_⟩
  · show aggregateTrends (consideredPatterns xs) = "ACCELERATING" ↔ _
    rw [hAgg]
    by_cases hacc : "ACCELERATING" ∈ (consideredPatterns xs).map
        (fun i => i.insight_data.trend_status.getD "STABLE")
    · rw [if_pos hacc]
      exact iff_of_true rfl ((hmem "ACCELERATING").mp hacc)
    · rw [if_neg hacc]
      by_cases hdec : "DECELERATING" ∈ (consideredPatterns xs).map
          (fun i => i.insight_data.trend_status.getD "STABLE")
      · rw [if_pos hdec]
        exact iff_of_false (by decide)
          (fun hex => hacc ((hmem "ACCELERATING").mpr hex))
      · rw [if_neg hdec]
        exact iff_of_false (by decide)
          (fun hex => hacc ((hmem "ACCELERATING").mpr hex))
  · show aggregateTrends (consideredPatterns xs) = "DECELERATING" ↔ _
    rw [hAgg]
    by_cases hacc : "ACCELERATING" ∈ (consideredPatterns xs).map
        (fun i => i.insight_data.trend_status.getD "STABLE")
    · rw [if_pos hacc]
      exact iff_of_false (by decide)
        (fun hex => hex.1 ((hmem "ACCELERATING").mp hacc))
    · rw [if_neg hacc]
      by_cases hdec : "DECELERATING" ∈ (consideredPatterns xs).map
          (fun i => i.insight_data.trend_status.getD "STABLE")
      · rw [if_pos hdec]
        exact iff_of_true rfl
          ⟨fun hex => hacc ((hmem "ACCELERATING").mpr hex),
            (hmem "DECELERATING").mp hdec⟩
      · rw [if_neg hdec]
        exact iff_of_false (by decide)
          (fun hex => hdec ((hmem "DECELERATING").mpr hex.2))
  · show aggregateTrends (consideredPatterns xs) = "STABLE" ↔ _
    rw [hAgg]
    by_cases hacc : "ACCELERATING" ∈ (consideredPatterns xs).map
        (fun i => i.insight_data.trend_status.getD "STABLE")
    · rw [if_pos hacc]
      exact iff_of_false (by decide)
        (fun hex => hex.1 ((hmem "ACCELERATING").mp hacc))
    · rw [if_neg hacc]
      by_cases hdec : "DECELERATING" ∈ (consideredPatterns xs).map
          (fun i => i.insight_data.trend_status.getD "STABLE")
      · rw [if_pos hdec]
        exact iff_of_false (by decide)
          (fun hex => hex.2 ((hmem "DECELERATING").mp hdec))
      · rw [if_neg hdec]
        exact iff_of_true rfl
          ⟨fun hex => hacc ((hmem "ACCELERATING").mpr hex),
            fun hex => hdec ((hmem "DECELERATING").mpr hex)⟩

/-- Two material patterns in a run with nothing else: both land in the
urgent tier. -/
def c9WitnessXs : List RawInsight :=
  [ { source_analyzer := "cost_analyzer", insight_type := "pattern",
      financial_impact := 5000, data_type := some "material",
      identifier := some "MAT-A", trend_status := some "ACCELERATING" },
    { source_analyzer := "cost_analyzer", insight_type := "pattern",
      financial_impact := 3000, data_type := some "material",
      identifier := some "MAT-B" } ]

/-- Witness for the corrected investigation-grouping property at a run
of two urgent material patterns. -/
theorem c9_investigation_grouping_witness :
    2 ≤ (consideredPatterns c9WitnessXs).length
    ∧ ∃ inv, analysisInvestigations c9WitnessXs = [inv]
      ∧ inv.total_impact
          = ((consideredPatterns c9WitnessXs).map
              ScoredInsight.financial_impact).sum
      ∧ inv.insight_count = (consideredPatterns c9WitnessXs).length
      ∧ (inv.trend_status = "ACCELERATING" ↔
          ∃ i ∈ consideredPatterns c9WitnessXs,
            i.insight_data.trend_status.getD "STABLE" = "ACCELERATING")
      ∧ (inv.trend_status = "DECELERATING" ↔
          (¬ (∃ i ∈ consideredPatterns c9WitnessXs,
              i.insight_data.trend_status.getD "STABLE" = "ACCELERATING")
            ∧ ∃ i ∈ consideredPatterns c9WitnessXs,
              i.insight_data.trend_status.getD "STABLE" = "DECELERATING"))
      ∧ (inv.trend_status = "STABLE" ↔
          (¬ (∃ i ∈ consideredPatterns c9WitnessXs,
              i.insight_data.trend_status.getD "STABLE" = "ACCELERATING")
            ∧ ¬ (∃ i ∈ consideredPatterns c9WitnessXs,
              i.insight_data.trend_status.getD "STABLE" = "DECELERATING"))) :=
  ⟨by decide, c9_investigation_grouping c9WitnessXs (by decide)⟩

end PlantIntel
